import Mathlib

set_option linter.unusedVariables false

namespace Lego

/-! Shallow embedding of the renewal-decision and renewal-execution engine of
the repository (cmd/cmd_renew.go, package cmd, together with the ARI test
fixtures of the certificate package).  Pure helpers (`merge`, `needRenewal`)
are translated directly; the orchestration functions `renewForDomains` and
`renewForCSR` are embedded as functions from an explicit environment (the
results of the external collaborators: storage, ACME client, hook runner,
terminal detector, random sources) to an outcome paired with the trace of
observable collaborator calls, in program order.  Machine times and durations
are modelled as mathematical integers counting nanoseconds, matching Go's
`time.Time`/`time.Duration` resolution. -/

/-- Result of a renewal step: normal value, an error returned to the caller
(Go `return err`), or a fatal termination (Go `log.Fatal*`). -/
inductive Res (α : Type) where
  | ok (a : α)
  | ret (e : String)
  | fatal (m : String)
  deriving DecidableEq, Repr

/-- Observable calls to the external collaborators, recorded in program order. -/
inductive Event where
  | readCSRFile
  | readCertificate (domain : String)
  | warnNoIssuer (domain : String)
  | getRenewalInfo
  | sleepUntil (t : Int)
  | readKeyFile (domain : String)
  | jitterSleep (d : Int)
  | obtain (domains : List String)
  | obtainForCSR
  | saveResource
  | updateRenewalInfo
  | warnUpdateFailed (domain : String)
  | launchHook (hook : String) (meta : List (String × String))
  deriving DecidableEq, Repr

/-- Modelled projection of Go's `x509.Certificate`: the fields the renewal
flow reads (the `IsCA` flag, `NotAfter` in nanoseconds since the epoch, and
the domain names `certcrypto.ExtractDomains` extracts). -/
structure Cert where
  isCA : Bool
  notAfter : Int
  sans : List String
  deriving DecidableEq, Repr

/-- Modelled projection of a parsed CSR: the renewal flow reads only
`csr.Subject.CommonName`. -/
structure Csr where
  commonName : String
  deriving DecidableEq, Repr

/-- Error returned by the ACME client's GetRenewalInfo: either the server
does not advertise a renewal-info endpoint (`api.ErrNoARI`) or some other
transport/protocol failure. -/
inductive AriError where
  | noARI (msg : String)
  | other (msg : String)
  deriving DecidableEq, Repr

/-- Body of the renewal-info response used by the flow: the suggested window
and the optional explanation URL. -/
structure RenewalInfoResponse where
  windowStart : Int
  windowEnd : Int
  explanationURL : String
  deriving DecidableEq, Repr

/-- Command-line options consumed by the renew command (cmd_renew.go flag
set), already parsed. -/
structure Opts where
  domains : List String
  csrSet : Bool
  days : Int
  ariEnable : Bool
  ariHashName : String
  ariWait : Int
  reuseKey : Bool
  bundle : Bool
  mustStaple : Bool
  renewHook : String
  preferredChain : String
  alwaysDeactivate : String
  noRandomSleep : Bool

/-- Environment: the responses of all external collaborators for one renewal
invocation (storage reads, ACME client calls, hook, terminal detection) plus
the sampled random values, made explicit so the orchestration is a pure
function of them. -/
structure Env where
  readCert : Except String (Cert × List Cert)
  csr : Except String Csr
  accountEmail : String
  ariResult : Except AriError RenewalInfoResponse
  draw : Int → Int → Int
  now : Int
  readKey : Except String Unit
  parseKey : Except String Unit
  isTerminal : Bool
  jitterDraw : Int
  obtainRes : Except String Unit
  obtainCSRRes : Except String Unit
  updateRes : Except String Unit
  hookRes : Except String Unit
  fileName : String → String → String

/-- Metadata keys (cmd_renew.go constants). -/
def renewEnvAccountEmail : String := "LEGO_ACCOUNT_EMAIL"

/-- Metadata key for the certificate domain. -/
def renewEnvCertDomain : String := "LEGO_CERT_DOMAIN"

/-- Metadata key for the certificate path. -/
def renewEnvCertPath : String := "LEGO_CERT_PATH"

/-- Metadata key for the key path. -/
def renewEnvCertKeyPath : String := "LEGO_CERT_KEY_PATH"

/-- Metadata key for the combined PEM path. -/
def renewEnvCertPEMPath : String := "LEGO_CERT_PEM_PATH"

/-- Metadata key for the PKCS#12 path. -/
def renewEnvCertPFXPath : String := "LEGO_CERT_PFX_PATH"

/-- Nanoseconds in one hour. -/
def nsPerHour : Int := 3600000000000

/-- Nanoseconds in one minute. -/
def nsPerMinute : Int := 60000000000

/-- Nanoseconds in one day. -/
def nsPerDay : Int := 86400000000000

/-- Jitter ceiling of renewForDomains: `8 * time.Minute` in nanoseconds. -/
def jitterCeiling : Int := 480000000000

/-- Go map assignment `m[k] = v` on an association-list model of the
metadata map: any previous binding of `k` is discarded and the new one
recorded. -/
def mset (m : List (String × String)) (k v : String) : List (String × String) :=
  m.filter (fun p => p.1 ≠ k) ++ [(k, v)]

/-- Lookup in the association-list model of the metadata map. -/
def mget (m : List (String × String)) (k : String) : Option String :=
  (m.find? (fun p => p.1 = k)).map (fun p => p.2)

/-- Translation of cmd_renew.go `merge(prevDomains, nextDomains)`: walk
`nextDomains` and append each entry that is not already present in the
(growing) `prevDomains`. -/
def merge (prevDomains nextDomains : List String) : List String :=
  nextDomains.foldl (fun prev next => if next ∈ prev then prev else prev ++ [next]) prevDomains

/-- Whole number of days between `now` and `notAfter`:
`int(time.Until(x509Cert.NotAfter).Hours() / 24.0)`, i.e. the nanosecond
difference divided by a day, truncated toward zero as Go's float-to-int
conversion does. -/
def intDaysUntil (now notAfter : Int) : Int :=
  Int.tdiv (notAfter - now) nsPerDay

/-- Translation of cmd_renew.go `needRenewal(x509Cert, domain, days)`: a CA
leaf is a fatal bundle-ordering error; otherwise with a non-negative `days`
threshold and more than `days` whole days remaining, no renewal is needed;
in every other case renewal proceeds. -/
def needRenewal (now : Int) (x509Cert : Cert) (domain : String) (days : Int) : Res Bool :=
  if x509Cert.isCA then
    .fatal ("[" ++ domain ++ "] Certificate bundle starts with a CA certificate")
  else if 0 ≤ days ∧ days < intDaysUntil now x509Cert.notAfter then
    .ok false
  else
    .ok true

/-- Modelled from the spec: `shouldRenewAt(window, now, maxWaitDuration)`
of the Renewal Window Evaluator (the implementation
`RenewalInfoResponse.ShouldRenewAt` is not among the sources here, only its
tests are).  Normalize the window so start ≤ end; draw one random instant
`r` inside the half-open window through the injectable random source `draw`
(degenerate window: `r` is the start); if `r` is at or before `now` renew
immediately at `now`; if `r` is beyond `now + maxWait` return absent; else
return `r`. -/
def shouldRenewAt (draw : Int → Int → Int) (wstart wend now maxWait : Int) : Option Int :=
  let s := min wstart wend
  let e := max wstart wend
  let r := if s = e then s else draw s e
  if r ≤ now then some now
  else if now + maxWait < r then none
  else some r

/-- Translation of cmd_renew.go `getARIRenewalTime(ctx, cert, issuer, domain,
client)`: a CA leaf is a fatal bundle-ordering error; any GetRenewalInfo
error (ARI not offered or otherwise) is logged and yields no renewal time;
otherwise the window is evaluated by the Renewal Window Evaluator. -/
def getARIRenewalTime (o : Opts) (env : Env) (cert : Cert) (domain : String) :
    Res (Option Int) × List Event :=
  if cert.isCA then
    (.fatal ("[" ++ domain ++ "] Certificate bundle starts with a CA certificate"), [])
  else
    match env.ariResult with
    | .error _ => (.ok none, [.getRenewalInfo])
    | .ok ri =>
        (.ok (shouldRenewAt env.draw ri.windowStart ri.windowEnd env.now o.ariWait),
          [.getRenewalInfo])

/-- ARI section shared by renewForDomains and renewForCSR (cmd_renew.go
lines 137-152 and 244-259): when ARI is enabled, warn and skip if the bundle
has no issuer, otherwise consult getARIRenewalTime; then, if a renewal time
in the future was produced, sleep until it. -/
def ariPhase (o : Opts) (env : Env) (cert : Cert) (hasIssuer : Bool) (domain : String) :
    Res (Option Int) × List Event :=
  if o.ariEnable then
    if !hasIssuer then (.ok none, [.warnNoIssuer domain])
    else
      match getARIRenewalTime o env cert domain with
      | (.ok (some rt), ev) =>
          if env.now < rt then (.ok (some rt), ev ++ [.sleepUntil rt])
          else (.ok (some rt), ev)
      | (.ok none, ev) => (.ok none, ev)
      | (.ret e, ev) => (.ret e, ev)
      | (.fatal m, ev) => (.fatal m, ev)
  else (.ok none, [])

/-- ARI renewal time produced by the ARI section of a run, when it produced
one. -/
def ariTimeOf (o : Opts) (env : Env) (cert : Cert) (hasIssuer : Bool) (domain : String) :
    Option Int :=
  match (ariPhase o env cert hasIssuer domain).1 with
  | .ok t => t
  | _ => none

/-- Key-reuse section of renewForDomains (cmd_renew.go lines 164-175): with
`--reuse-key`, read the stored key (a read failure is fatal) and parse it (a
parse failure is returned to the caller as an error). -/
def keyPhase (o : Opts) (env : Env) (domain : String) : Res Unit × List Event :=
  if o.reuseKey then
    match env.readKey with
    | .error e =>
        (.fatal ("Error while loading the private key for domain " ++ domain ++ " " ++ e),
          [.readKeyFile domain])
    | .ok _ =>
        match env.parseKey with
        | .error e => (.ret e, [.readKeyFile domain])
        | .ok _ => (.ok (), [.readKeyFile domain])
  else (.ok (), [])

/-- Anti-thundering-herd jitter events (cmd_renew.go lines 179-187): one
random sleep, drawn below `8 * time.Minute`, exactly when standard output is
not a terminal and `--no-random-sleep` is not set. -/
def jitterEvents (o : Opts) (env : Env) : List Event :=
  if !env.isTerminal && !o.noRandomSleep then [.jitterSleep env.jitterDraw] else []

/-- Replacement-report events (cmd_renew.go lines 204-215 and 281-292): when
an ARI renewal time was used, call UpdateRenewalInfo; a failure there is
only logged as a warning. -/
def updateEvents (env : Env) (ariTime : Option Int) (domain : String) : List Event :=
  if ariTime.isSome then
    match env.updateRes with
    | .error _ => [Event.updateRenewalInfo, Event.warnUpdateFailed domain]
    | .ok _ => [Event.updateRenewalInfo]
  else []

/-- Metadata populated by renewForDomains (cmd_renew.go lines 217-221). -/
def domainsMeta (env : Env) (meta : List (String × String)) (domain : String) :
    List (String × String) :=
  mset (mset (mset (mset (mset meta renewEnvCertDomain domain)
    renewEnvCertPath (env.fileName domain ".crt"))
    renewEnvCertKeyPath (env.fileName domain ".key"))
    renewEnvCertPEMPath (env.fileName domain ".pem"))
    renewEnvCertPFXPath (env.fileName domain ".pfx")

/-- Metadata populated by renewForCSR (cmd_renew.go lines 294-296): the
domain, the certificate path and the key path only. -/
def csrMeta (env : Env) (meta : List (String × String)) (domain : String) :
    List (String × String) :=
  mset (mset (mset meta renewEnvCertDomain domain)
    renewEnvCertPath (env.fileName domain ".crt"))
    renewEnvCertKeyPath (env.fileName domain ".key")

/-- Outcome of `return launchHook(...)`: the hook error, if any, is the
return value of the renewal. -/
def hookOutcome (env : Env) : Res Unit :=
  match env.hookRes with
  | .error e => .ret e
  | .ok _ => .ok ()

/-- Renewal gate `ariRenewalTime == nil && !needRenewal(cert, domain, days)`
(cmd_renew.go lines 154 and 261), with Go's short-circuit evaluation:
needRenewal runs (and can be fatal) only when no ARI renewal time was
produced; `.ok false` means the early "no renewal needed" return. -/
def renewGate (o : Opts) (env : Env) (cert : Cert) (domain : String)
    (ariTime : Option Int) : Res Bool :=
  if ariTime.isNone then needRenewal env.now cert domain o.days else .ok true

/-- Tail of renewForDomains after the renewal decision (cmd_renew.go lines
164-223): key reuse, anti-thundering-herd jitter, Obtain, SaveResource, the
replacement report when an ARI renewal time was used, metadata population
and the hook. -/
def domainsTail (o : Opts) (env : Env) (cert : Cert) (ariTime : Option Int)
    (meta : List (String × String)) (domain : String) : Res Unit × List Event :=
  match keyPhase o env domain with
  | (.ok _, evK) =>
      let merged := merge cert.sans o.domains
      match env.obtainRes with
      | .error e => (.fatal e, evK ++ jitterEvents o env ++ [.obtain merged])
      | .ok _ =>
          (hookOutcome env,
            evK ++ jitterEvents o env ++ [.obtain merged, .saveResource] ++
              updateEvents env ariTime domain ++
              [.launchHook o.renewHook (domainsMeta env meta domain)])
  | (.ret e, evK) => (.ret e, evK)
  | (.fatal m, evK) => (.fatal m, evK)

/-- First requested domain, `domains[0]` (the command layer guarantees the
list is non-empty). -/
def firstDomain (o : Opts) : String := o.domains.headD ""

/-- Translation of cmd_renew.go `renewForDomains`: load the stored chain
(fatal on failure), run the ARI section, gate on `ariRenewalTime == nil &&
!needRenewal(...)` (early no-renewal return), then run the tail. -/
def renewForDomains (o : Opts) (env : Env) (meta : List (String × String)) :
    Res Unit × List Event :=
  let domain := firstDomain o
  match env.readCert with
  | .error e =>
      (.fatal ("Error while loading the certificate for domain " ++ domain ++ " " ++ e),
        [.readCertificate domain])
  | .ok (cert, rest) =>
      match ariPhase o env cert (!rest.isEmpty) domain with
      | (.ok ariTime, evA) =>
          match renewGate o env cert domain ariTime with
          | .ok false => (.ok (), .readCertificate domain :: evA)
          | .ok true =>
              let (r, evT) := domainsTail o env cert ariTime meta domain
              (r, .readCertificate domain :: (evA ++ evT))
          | .ret e => (.ret e, .readCertificate domain :: evA)
          | .fatal m => (.fatal m, .readCertificate domain :: evA)
      | (.ret e, evA) => (.ret e, .readCertificate domain :: evA)
      | (.fatal m, evA) => (.fatal m, .readCertificate domain :: evA)

/-- Tail of renewForCSR after the renewal decision (cmd_renew.go lines
265-298): ObtainForCSR, SaveResource, the replacement report when an ARI
renewal time was used, metadata population (domain, certificate path and key
path only) and the hook.  There is no key-reuse section and no jitter sleep
on this path. -/
def csrTail (o : Opts) (env : Env) (ariTime : Option Int)
    (meta : List (String × String)) (domain : String) : Res Unit × List Event :=
  match env.obtainCSRRes with
  | .error e => (.fatal e, [.obtainForCSR])
  | .ok _ =>
      (hookOutcome env,
        [.obtainForCSR, .saveResource] ++ updateEvents env ariTime domain ++
          [.launchHook o.renewHook (csrMeta env meta domain)])

/-- Translation of cmd_renew.go `renewForCSR`: read the CSR (fatal on
failure), load the stored chain for its common name (fatal on failure), run
the ARI section, gate on `ariRenewalTime == nil && !needRenewal(...)`, then
run the tail. -/
def renewForCSR (o : Opts) (env : Env) (meta : List (String × String)) :
    Res Unit × List Event :=
  match env.csr with
  | .error e => (.fatal e, [.readCSRFile])
  | .ok csr =>
      let domain := csr.commonName
      match env.readCert with
      | .error e =>
          (.fatal ("Error while loading the certificate for domain " ++ domain ++ " " ++ e),
            [.readCSRFile, .readCertificate domain])
      | .ok (cert, rest) =>
          match ariPhase o env cert (!rest.isEmpty) domain with
          | (.ok ariTime, evA) =>
              match renewGate o env cert domain ariTime with
              | .ok false => (.ok (), .readCSRFile :: .readCertificate domain :: evA)
              | .ok true =>
                  let (r, evT) := csrTail o env ariTime meta domain
                  (r, .readCSRFile :: .readCertificate domain :: (evA ++ evT))
              | .ret e => (.ret e, .readCSRFile :: .readCertificate domain :: evA)
              | .fatal m => (.fatal m, .readCSRFile :: .readCertificate domain :: evA)
          | (.ret e, evA) => (.ret e, .readCSRFile :: .readCertificate domain :: evA)
          | (.fatal m, evA) => (.fatal m, .readCSRFile :: .readCertificate domain :: evA)

/-- Translation of cmd_renew.go `renew`: seed the metadata with the account
email, then dispatch on whether a CSR was supplied. -/
def renew (o : Opts) (env : Env) : Res Unit × List Event :=
  let meta := [(renewEnvAccountEmail, env.accountEmail)]
  if o.csrSet then renewForCSR o env meta else renewForDomains o env meta

/-- Truncation of a natural number to a 32-bit word. -/
def w32 (n : Nat) : Nat := n % 4294967296

/-- Right rotation of a 32-bit word by `n` positions. -/
def rotr (n x : Nat) : Nat := w32 ((x >>> n) ||| (x <<< (32 - n)))

/-- SHA-256 round constants. -/
def sha256K : List Nat :=
  [1116352408, 1899447441, 3049323471, 3921009573, 961987163,
   1508970993, 2453635748, 2870763221, 3624381080, 310598401,
   607225278, 1426881987, 1925078388, 2162078206, 2614888103,
   3248222580, 3835390401, 4022224774, 264347078, 604807628,
   770255983, 1249150122, 1555081692, 1996064986, 2554220882,
   2821834349, 2952996808, 3210313671, 3336571891, 3584528711,
   113926993, 338241895, 666307205, 773529912, 1294757372,
   1396182291, 1695183700, 1986661051, 2177026350, 2456956037,
   2730485921, 2820302411, 3259730800, 3345764771, 3516065817,
   3600352804, 4094571909, 275423344, 430227734, 506948616,
   659060556, 883997877, 958139571, 1322822218, 1537002063,
   1747873779, 1955562222, 2024104815, 2227730452, 2361852424,
   2428436474, 2756734187, 3204031479, 3329325298]

/-- SHA-256 initial hash values. -/
def sha256Start : List Nat :=
  [1779033703, 3144134277, 1013904242, 2773480762,
   1359893119, 2600822924, 528734635, 1541459225]

/-- Big-endian 8-byte encoding of a 64-bit length. -/
def lenBytes64 (n : Nat) : List Nat :=
  [(n >>> 56) &&& 255, (n >>> 48) &&& 255, (n >>> 40) &&& 255, (n >>> 32) &&& 255,
   (n >>> 24) &&& 255, (n >>> 16) &&& 255, (n >>> 8) &&& 255, n &&& 255]

/-- SHA-256 message padding: a 0x80 byte, zeros to 56 mod 64, and the bit
length in 8 big-endian bytes. -/
def padMsg (m : List Nat) : List Nat :=
  let l := m.length
  let zeros := (119 - (l % 64)) % 64
  m ++ 128 :: (List.replicate zeros 0 ++ lenBytes64 (8 * l))

/-- Chunk a byte list into big-endian 32-bit words. -/
def toWords : List Nat → List Nat
  | a :: b :: c :: d :: rest => (((a * 256 + b) * 256 + c) * 256 + d) :: toWords rest
  | _ => []

/-- Message-schedule extension, keeping the words produced so far newest
first so each step reads positions 1, 6, 14 and 15. -/
def msgScheduleAux : Nat → List Nat → List Nat
  | 0, acc => acc.reverse
  | n + 1, acc =>
      let g := fun i => acc.getD i 0
      let x2 := g 1
      let x15 := g 14
      let s1 := rotr 17 x2 ^^^ rotr 19 x2 ^^^ (x2 >>> 10)
      let s0 := rotr 7 x15 ^^^ rotr 18 x15 ^^^ (x15 >>> 3)
      msgScheduleAux n (w32 (s1 + g 6 + s0 + g 15) :: acc)

/-- Full 64-word message schedule of one 16-word block. -/
def msgSchedule (block : List Nat) : List Nat := msgScheduleAux 48 block.reverse

/-- One SHA-256 round on the eight working variables. -/
def sha256Round (st : Nat × Nat × Nat × Nat × Nat × Nat × Nat × Nat) (wk : Nat × Nat) :
    Nat × Nat × Nat × Nat × Nat × Nat × Nat × Nat :=
  let (a, b, c, d, e, f, g, h) := st
  let (w, k) := wk
  let s1 := rotr 6 e ^^^ rotr 11 e ^^^ rotr 25 e
  let ch := (e &&& f) ^^^ ((e ^^^ 4294967295) &&& g)
  let t1 := w32 (h + s1 + ch + k + w)
  let s0 := rotr 2 a ^^^ rotr 13 a ^^^ rotr 22 a
  let maj := (a &&& b) ^^^ (a &&& c) ^^^ (b &&& c)
  let t2 := w32 (s0 + maj)
  (w32 (t1 + t2), a, b, c, w32 (d + t1), e, f, g)

/-- SHA-256 compression of one block into the running hash state. -/
def sha256Compress (h0 : List Nat) (block : List Nat) : List Nat :=
  let ws := msgSchedule block
  let g := fun i => h0.getD i 0
  let st := (ws.zip sha256K).foldl sha256Round (g 0, g 1, g 2, g 3, g 4, g 5, g 6, g 7)
  match st with
  | (a, b, c, d, e, f, gg, h) =>
      [w32 (g 0 + a), w32 (g 1 + b), w32 (g 2 + c), w32 (g 3 + d),
       w32 (g 4 + e), w32 (g 5 + f), w32 (g 6 + gg), w32 (g 7 + h)]

/-- Fold the compression over the given number of 16-word blocks. -/
def sha256Blocks : Nat → List Nat → List Nat → List Nat
  | 0, h, _ => h
  | fuel + 1, h, ws => sha256Blocks fuel (sha256Compress h (ws.take 16)) (ws.drop 16)

/-- Big-endian bytes of one 32-bit word. -/
def wordBytes (w : Nat) : List Nat :=
  [(w >>> 24) &&& 255, (w >>> 16) &&& 255, (w >>> 8) &&& 255, w &&& 255]

/-- SHA-256 digest of a byte list, as 32 bytes. -/
def sha256 (m : List Nat) : List Nat :=
  let ws := toWords (padMsg m)
  ((sha256Blocks (ws.length / 16) sha256Start ws).map wordBytes).flatten

/-- Minimal big-endian byte encoding of a natural number, through an
explicit fuel argument (the number itself bounds the number of digits). -/
def natBytesAux : Nat → Nat → List Nat
  | 0, _ => []
  | fuel + 1, n => if n = 0 then [] else natBytesAux fuel (n / 256) ++ [n % 256]

/-- Minimal big-endian byte encoding of a natural number (empty for 0). -/
def natBytes (n : Nat) : List Nat := natBytesAux n n

/-- DER length octets (short form below 128, long form above). -/
def derLen (n : Nat) : List Nat :=
  if n < 128 then [n] else (128 + (natBytes n).length) :: natBytes n

/-- DER OCTET STRING of the given contents. -/
def derOctet (b : List Nat) : List Nat := 4 :: (derLen b.length ++ b)

/-- DER INTEGER of a non-negative value: minimal big-endian bytes with a
leading zero byte whenever the high bit of the first byte is set. -/
def derIntNat (n : Nat) : List Nat :=
  let bs := if n = 0 then [0] else natBytes n
  let bs2 := if 128 ≤ bs.headD 0 then 0 :: bs else bs
  2 :: (derLen bs2.length ++ bs2)

/-- DER AlgorithmIdentifier for SHA-256: a SEQUENCE holding the object
identifier 2.16.840.1.101.3.4.2.1 with absent parameters. -/
def derAlgIdSHA256 : List Nat := [48, 11, 6, 9, 96, 134, 72, 1, 101, 3, 4, 2, 1]

/-- DER SEQUENCE with the given contents. -/
def derSeq (content : List Nat) : List Nat := 48 :: (derLen content.length ++ content)

/-- Base64url alphabet. -/
def b64urlAlphabet : List Char :=
  "ABCDEFGHIJKLMNOPQRSTUVWXYZabcdefghijklmnopqrstuvwxyz0123456789-_".toList

/-- Character for one 6-bit value. -/
def b64c (i : Nat) : Char := b64urlAlphabet.getD i (Char.ofNat 65)

/-- Base64url encoding without padding. -/
def b64urlEncode : List Nat → List Char
  | a :: b :: c :: rest =>
      let n := (a * 256 + b) * 256 + c
      b64c (n >>> 18) :: b64c ((n >>> 12) &&& 63) :: b64c ((n >>> 6) &&& 63) ::
        b64c (n &&& 63) :: b64urlEncode rest
  | [a, b] => [b64c (a >>> 2), b64c (((a &&& 3) <<< 4) ||| (b >>> 4)), b64c ((b &&& 15) <<< 2)]
  | [a] => [b64c (a >>> 2), b64c ((a &&& 3) <<< 4)]
  | [] => []

/-- Modelled from the spec (§4.1 CertID Codec): `makeCertID(leaf, issuer,
hashAlgorithmName)`, whose implementation is not among the sources here
(only its test and fixtures are).  The leaf contributes its serial number;
the issuer, which must be present (absence is an invalid-input error), is
given by the two DER fields the algorithm hashes: its RawSubject and the
contents of the subjectPublicKey BIT STRING of its SubjectPublicKeyInfo.
Only the "SHA-256" hash name is modelled; any other name is an encoding
failure.  The canonical DER SEQUENCE of hash-algorithm identifier, issuer
name hash, issuer key hash and leaf serial (an ASN.1 INTEGER, with a leading
zero byte when the high bit of the serial is set) is base64url-encoded
without padding. -/
def makeCertID (leafSerial : Nat) (issuer : Option (List Nat × List Nat))
    (hashName : String) : Except String String :=
  match issuer with
  | none => .error "issuer certificate is required"
  | some (rawSubject, keyBits) =>
      if hashName = "SHA-256" then
        let content := derAlgIdSHA256 ++ derOctet (sha256 rawSubject) ++
          derOctet (sha256 keyBits) ++ derIntNat leafSerial
        .ok (String.mk (b64urlEncode (derSeq content)))
      else .error "unsupported hash name"

/-- Serial number of the fixture leaf certificate `ariLeafPEM`
(Test_makeCertID). -/
def ariLeafSerial : Nat := 0x3EA3456865441F1C

/-- DER-encoded subject name (RawSubject) of the fixture issuer certificate
`ariIssuerPEM`: the name with common name "minica root ca 3a1356". -/
def ariIssuerRawSubject : List Nat :=
  [48, 32, 49, 30, 48, 28, 6, 3, 85, 4, 3, 19, 21, 109, 105, 110,
   105, 99, 97, 32, 114, 111, 111, 116, 32, 99, 97, 32, 51, 97, 49, 51,
   53, 54]

/-- Contents of the subjectPublicKey BIT STRING of the fixture issuer
certificate `ariIssuerPEM` (the DER RSAPublicKey). -/
def ariIssuerKeyBits : List Nat :=
  [48, 130, 1, 10, 2, 130, 1, 1, 0, 220, 220, 254, 156, 197, 192, 153,
   236, 84, 14, 66, 182, 46, 138, 4, 94, 73, 175, 19, 32, 227, 205, 42,
   105, 102, 95, 211, 171, 78, 67, 240, 141, 56, 98, 48, 209, 4, 77, 130,
   142, 213, 230, 189, 247, 37, 207, 43, 126, 139, 80, 112, 186, 56, 185, 153,
   246, 53, 80, 91, 99, 114, 214, 172, 16, 8, 236, 186, 78, 186, 174, 134,
   124, 10, 130, 217, 1, 48, 48, 25, 4, 188, 146, 72, 69, 216, 116, 162,
   247, 175, 72, 192, 226, 199, 229, 91, 93, 244, 252, 226, 240, 134, 203, 84,
   255, 43, 244, 39, 207, 169, 143, 183, 146, 84, 228, 119, 204, 144, 103, 97,
   221, 64, 170, 117, 199, 69, 44, 16, 155, 111, 125, 41, 120, 42, 122, 102,
   187, 187, 11, 26, 241, 200, 35, 173, 123, 1, 204, 8, 107, 194, 187, 216,
   149, 88, 105, 88, 84, 175, 222, 84, 17, 12, 84, 32, 115, 150, 127, 100,
   53, 125, 139, 110, 170, 137, 162, 108, 8, 41, 157, 138, 194, 89, 88, 222,
   205, 218, 91, 148, 131, 23, 81, 171, 54, 120, 10, 189, 151, 162, 41, 96,
   221, 63, 161, 145, 189, 178, 253, 222, 173, 182, 195, 192, 145, 164, 128, 250,
   154, 183, 171, 164, 26, 239, 250, 159, 25, 212, 249, 90, 229, 36, 112, 122,
   111, 40, 212, 86, 170, 124, 19, 246, 176, 152, 150, 97, 180, 210, 189, 225,
   26, 7, 56, 216, 63, 243, 213, 91, 223, 2, 3, 1, 0, 1]

/-- Reference CertID string for the fixture pair (constant `ariLeafCertID`
of the test file). -/
def ariLeafCertID : String :=
  "MFswCwYJYIZIAWUDBAIBBCCeWLRusNLb--vmWOkxm34qDjTMWkc3utIhOMoMwKDqbgQg2iiKWySZrD-6c88HMZ6vhIHZPamChLlzGHeZ7pTS8jYCCD6jRWhlRB8c"

/-! Helper lemmas. -/

theorem merge_nil (prev : List String) : merge prev [] = prev := rfl

theorem merge_cons (prev : List String) (n : String) (rest : List String) :
    merge prev (n :: rest) = merge (if n ∈ prev then prev else prev ++ [n]) rest := rfl

theorem merge_decomp (next : List String) : ∀ prev : List String,
    ∃ l, merge prev next = prev ++ l ∧ l.Sublist next ∧ l.Nodup ∧
      (∀ s ∈ l, s ∉ prev ∧ s ∈ next) ∧ (∀ s ∈ next, s ∉ prev → s ∈ l) := by
  induction next with
  | nil =>
    intro prev
    exact ⟨[], by simp [merge_nil], List.nil_sublist _, List.nodup_nil, by simp, by simp⟩
  | cons n rest ih =>
    intro prev
    by_cases hn : n ∈ prev
    · obtain ⟨l, hdec, hsub, hnd, hmem, hcomp⟩ := ih prev
      refine ⟨l, ?_, hsub.cons n, hnd, ?_, ?_⟩
      · rw [merge_cons, if_pos hn]; exact hdec
      · intro s hs
        obtain ⟨h1, h2⟩ := hmem s hs
        exact ⟨h1, List.mem_cons_of_mem _ h2⟩
      · intro s hs hsp
        rcases List.mem_cons.mp hs with rfl | hs2
        · exact absurd hn hsp
        · exact hcomp s hs2 hsp
    · obtain ⟨l, hdec, hsub, hnd, hmem, hcomp⟩ := ih (prev ++ [n])
      refine ⟨n :: l, ?_, hsub.cons₂ n, ?_, ?_, ?_⟩
      · rw [merge_cons, if_neg hn, hdec, List.append_assoc]
        rfl
      · refine List.nodup_cons.mpr ⟨fun hnl => ?_, hnd⟩
        have := (hmem n hnl).1
        simp at this
      · intro s hs
        rcases List.mem_cons.mp hs with rfl | hs2
        · exact ⟨hn, List.mem_cons_self _ _⟩
        · obtain ⟨h1, h2⟩ := hmem s hs2
          refine ⟨fun hp => h1 (List.mem_append_left _ hp), List.mem_cons_of_mem _ h2⟩
      · intro s hs hsp
        rcases List.mem_cons.mp hs with rfl | hs2
        · exact List.mem_cons_self _ _
        · by_cases hsn : s = n
          · subst hsn; exact List.mem_cons_self _ _
          · have hnot : s ∉ prev ++ [n] := by simp [hsn, hsp]
            exact List.mem_cons_of_mem _ (hcomp s hs2 hnot)

theorem merge_of_subset (next : List String) : ∀ prev : List String,
    (∀ s ∈ next, s ∈ prev) → merge prev next = prev := by
  induction next with
  | nil => intro prev _; rfl
  | cons n rest ih =>
    intro prev h
    rw [merge_cons, if_pos (h n (List.mem_cons_self _ _))]
    exact ih prev fun s hs => h s (List.mem_cons_of_mem _ hs)

theorem middle_unique {α : Type} {a : α} : ∀ {l1 : List α} {l2 : List α} {p q : List α},
    l1 ++ a :: l2 = p ++ a :: q → a ∉ l1 → a ∉ l2 → p = l1 ∧ q = l2 := by
  intro l1
  induction l1 with
  | nil =>
    intro l2 p q h h1 h2
    cases p with
    | nil => simpa using h.symm
    | cons x p2 =>
      rw [List.nil_append, List.cons_append, List.cons.injEq] at h
      rcases h with ⟨rfl, h⟩
      exact absurd (h ▸ List.mem_append_right p2 (List.mem_cons_self a q)) h2
  | cons x l1t ih =>
    intro l2 p q h h1 h2
    cases p with
    | nil =>
      rw [List.cons_append, List.nil_append, List.cons.injEq] at h
      rcases h with ⟨rfl, h⟩
      exact absurd (List.mem_cons_self x l1t) h1
    | cons y p2 =>
      rw [List.cons_append, List.cons_append, List.cons.injEq] at h
      rcases h with ⟨rfl, h⟩
      obtain ⟨hp, hq⟩ := ih h (fun hm => h1 (List.mem_cons_of_mem _ hm)) h2
      exact ⟨by rw [hp], hq⟩

theorem getARIRenewalTime_shape (o : Opts) (env : Env) (cert : Cert) (domain : String) :
    (cert.isCA = true ∧ getARIRenewalTime o env cert domain =
      (.fatal ("[" ++ domain ++ "] Certificate bundle starts with a CA certificate"), [])) ∨
    (cert.isCA = false ∧
      ∃ t, getARIRenewalTime o env cert domain = (.ok t, [.getRenewalInfo])) := by
  cases hca : cert.isCA
  · refine Or.inr ⟨rfl, ?_⟩
    rcases har : env.ariResult with e | ri
    · exact ⟨none, by simp [getARIRenewalTime, hca, har]⟩
    · exact ⟨shouldRenewAt env.draw ri.windowStart ri.windowEnd env.now o.ariWait,
        by simp [getARIRenewalTime, hca, har]⟩
  · exact Or.inl ⟨rfl, by simp [getARIRenewalTime, hca]⟩

theorem ariPhase_shape (o : Opts) (env : Env) (cert : Cert) (hi : Bool) (domain : String) :
    (o.ariEnable = false ∧ ariPhase o env cert hi domain = (.ok none, [])) ∨
    (o.ariEnable = true ∧ hi = false ∧
      ariPhase o env cert hi domain = (.ok none, [.warnNoIssuer domain])) ∨
    (o.ariEnable = true ∧ hi = true ∧ cert.isCA = true ∧
      ariPhase o env cert hi domain =
        (.fatal ("[" ++ domain ++ "] Certificate bundle starts with a CA certificate"), [])) ∨
    (o.ariEnable = true ∧ hi = true ∧ cert.isCA = false ∧
      ((ariTimeOf o env cert hi domain = none ∧
         ariPhase o env cert hi domain = (.ok none, [.getRenewalInfo])) ∨
       (∃ rt, ariTimeOf o env cert hi domain = some rt ∧
         (ariPhase o env cert hi domain = (.ok (some rt), [.getRenewalInfo]) ∨
          ariPhase o env cert hi domain =
            (.ok (some rt), [.getRenewalInfo, .sleepUntil rt]))))) := by
  cases hae : o.ariEnable
  · exact Or.inl ⟨rfl, by simp [ariPhase, hae]⟩
  · cases hi
    · exact Or.inr (Or.inl ⟨rfl, rfl, by simp [ariPhase, hae]⟩)
    · rcases getARIRenewalTime_shape o env cert domain with ⟨hca, hga⟩ | ⟨hca, t, hga⟩
      · refine Or.inr (Or.inr (Or.inl ⟨rfl, rfl, hca, ?_⟩))
        simp [ariPhase, hae, hga]
      · refine Or.inr (Or.inr (Or.inr ⟨rfl, rfl, hca, ?_⟩))
        cases t with
        | none =>
          have hap : ariPhase o env cert true domain = (.ok none, [.getRenewalInfo]) := by
            simp [ariPhase, hae, hga]
          exact Or.inl ⟨by simp [ariTimeOf, hap], hap⟩
        | some rt =>
          by_cases hlt : env.now < rt
          · have hap : ariPhase o env cert true domain =
                (.ok (some rt), [.getRenewalInfo, .sleepUntil rt]) := by
              simp [ariPhase, hae, hga, hlt]
            exact Or.inr ⟨rt, by simp [ariTimeOf, hap], Or.inr hap⟩
          · have hap : ariPhase o env cert true domain =
                (.ok (some rt), [.getRenewalInfo]) := by
              simp [ariPhase, hae, hga, hlt]
            exact Or.inr ⟨rt, by simp [ariTimeOf, hap], Or.inl hap⟩

theorem ariPhase_no_ret (o : Opts) (env : Env) (cert : Cert) (hi : Bool) (domain : String)
    (e : String) : (ariPhase o env cert hi domain).1 ≠ .ret e := by
  rcases ariPhase_shape o env cert hi domain with ⟨_, h⟩ | ⟨_, _, h⟩ | ⟨_, _, _, h⟩ |
    ⟨_, _, _, ⟨_, h⟩ | ⟨rt, _, h | h⟩⟩ <;> simp [h]

theorem ariPhase_events (o : Opts) (env : Env) (cert : Cert) (hi : Bool) (domain : String) :
    ∀ ev ∈ (ariPhase o env cert hi domain).2,
      ev = .warnNoIssuer domain ∨ ev = .getRenewalInfo ∨ ∃ t, ev = .sleepUntil t := by
  intro ev hev
  rcases ariPhase_shape o env cert hi domain with ⟨_, h⟩ | ⟨_, _, h⟩ | ⟨_, _, _, h⟩ |
    ⟨_, _, _, ⟨_, h⟩ | ⟨rt, _, h | h⟩⟩ <;> rw [h] at hev <;> simp_all <;> tauto

theorem ariTimeOf_eq (o : Opts) (env : Env) (cert : Cert) (hi : Bool) (domain : String)
    (t : Option Int) (ev : List Event) (h : ariPhase o env cert hi domain = (.ok t, ev)) :
    ariTimeOf o env cert hi domain = t := by
  unfold ariTimeOf
  rw [h]

theorem needRenewal_no_ret (now : Int) (cert : Cert) (domain : String) (days : Int)
    (e : String) : needRenewal now cert domain days ≠ .ret e := by
  unfold needRenewal
  split
  · simp
  · split <;> simp

theorem renewGate_no_ret (o : Opts) (env : Env) (cert : Cert) (domain : String)
    (ariTime : Option Int) (e : String) :
    renewGate o env cert domain ariTime ≠ .ret e := by
  cases ariTime with
  | none => simpa [renewGate] using needRenewal_no_ret env.now cert domain o.days e
  | some rt => simp [renewGate]

theorem keyPhase_shape (o : Opts) (env : Env) (domain : String) :
    (o.reuseKey = false ∧ keyPhase o env domain = (.ok (), [])) ∨
    (o.reuseKey = true ∧
      ((∃ e m, env.readKey = .error e ∧
         keyPhase o env domain = (.fatal m, [.readKeyFile domain])) ∨
       (∃ e, env.readKey = .ok () ∧ env.parseKey = .error e ∧
         keyPhase o env domain = (.ret e, [.readKeyFile domain])) ∨
       (env.readKey = .ok () ∧ env.parseKey = .ok () ∧
         keyPhase o env domain = (.ok (), [.readKeyFile domain])))) := by
  cases hrk : o.reuseKey
  · exact Or.inl ⟨rfl, by simp [keyPhase, hrk]⟩
  · refine Or.inr ⟨rfl, ?_⟩
    rcases hkey : env.readKey with e | u
    · exact Or.inl ⟨e, "Error while loading the private key for domain " ++ domain ++ " " ++ e,
        rfl, by simp [keyPhase, hrk, hkey]⟩
    · cases u
      rcases hpk : env.parseKey with e | u2
      · exact Or.inr (Or.inl ⟨e, rfl, rfl, by simp [keyPhase, hrk, hkey, hpk]⟩)
      · cases u2
        exact Or.inr (Or.inr ⟨rfl, rfl, by simp [keyPhase, hrk, hkey, hpk]⟩)

theorem keyPhase_events (o : Opts) (env : Env) (domain : String) :
    ∀ ev ∈ (keyPhase o env domain).2, ev = .readKeyFile domain := by
  intro ev hev
  rcases keyPhase_shape o env domain with ⟨_, h⟩ |
    ⟨_, ⟨e, m, _, h⟩ | ⟨e, _, _, h⟩ | ⟨_, _, h⟩⟩ <;> rw [h] at hev <;> simp_all

theorem jitterEvents_events (o : Opts) (env : Env) :
    ∀ ev ∈ jitterEvents o env, ev = .jitterSleep env.jitterDraw := by
  intro ev hev
  unfold jitterEvents at hev
  split at hev <;> simp_all

theorem updateEvents_shape (env : Env) (ariTime : Option Int) (domain : String) :
    (ariTime.isSome = false ∧ updateEvents env ariTime domain = []) ∨
    (ariTime.isSome = true ∧
      (updateEvents env ariTime domain = [Event.updateRenewalInfo] ∨
       updateEvents env ariTime domain =
         [Event.updateRenewalInfo, Event.warnUpdateFailed domain])) := by
  cases ariTime with
  | none => exact Or.inl ⟨rfl, by simp [updateEvents]⟩
  | some rt =>
    refine Or.inr ⟨rfl, ?_⟩
    rcases hup : env.updateRes with e | u
    · exact Or.inr (by simp [updateEvents, hup])
    · exact Or.inl (by simp [updateEvents, hup])

theorem updateEvents_events (env : Env) (ariTime : Option Int) (domain : String) :
    ∀ ev ∈ updateEvents env ariTime domain,
      ev = .updateRenewalInfo ∨ ev = .warnUpdateFailed domain := by
  intro ev hev
  rcases updateEvents_shape env ariTime domain with ⟨_, h⟩ | ⟨_, h | h⟩ <;>
    rw [h] at hev <;> simp_all

theorem update_mem_updateEvents (env : Env) (ariTime : Option Int) (domain : String) :
    Event.updateRenewalInfo ∈ updateEvents env ariTime domain ↔ ariTime.isSome = true := by
  rcases updateEvents_shape env ariTime domain with ⟨hs, h⟩ | ⟨hs, h | h⟩ <;>
    rw [h, hs] <;> simp

theorem renewForDomains_shape (o : Opts) (env : Env) (meta : List (String × String)) :
    (∃ e, env.readCert = .error e ∧
      renewForDomains o env meta =
        (.fatal ("Error while loading the certificate for domain " ++
            (firstDomain o) ++ " " ++ e),
          [.readCertificate (firstDomain o)])) ∨
    (∃ cert rest, env.readCert = .ok (cert, rest) ∧
      ((∃ m evA, ariPhase o env cert (!rest.isEmpty) (firstDomain o) = (.fatal m, evA) ∧
         renewForDomains o env meta =
           (.fatal m, .readCertificate (firstDomain o) :: evA)) ∨
       (∃ ariT evA, ariPhase o env cert (!rest.isEmpty) (firstDomain o) = (.ok ariT, evA) ∧
         ((renewGate o env cert (firstDomain o) ariT = .ok false ∧
            renewForDomains o env meta =
              (.ok (), .readCertificate (firstDomain o) :: evA)) ∨
          (∃ m, renewGate o env cert (firstDomain o) ariT = .fatal m ∧
            renewForDomains o env meta =
              (.fatal m, .readCertificate (firstDomain o) :: evA)) ∨
          (renewGate o env cert (firstDomain o) ariT = .ok true ∧
            ((∃ m evK, keyPhase o env (firstDomain o) = (.fatal m, evK) ∧
               renewForDomains o env meta =
                 (.fatal m, .readCertificate (firstDomain o) :: (evA ++ evK))) ∨
             (∃ e evK, keyPhase o env (firstDomain o) = (.ret e, evK) ∧
               renewForDomains o env meta =
                 (.ret e, .readCertificate (firstDomain o) :: (evA ++ evK))) ∨
             (∃ evK, keyPhase o env (firstDomain o) = (.ok (), evK) ∧
               ((∃ e, env.obtainRes = .error e ∧
                  renewForDomains o env meta =
                    (.fatal e, .readCertificate (firstDomain o) ::
                      (evA ++ (evK ++ jitterEvents o env ++
                        [.obtain (merge cert.sans o.domains)])))) ∨
                (env.obtainRes = .ok () ∧
                  renewForDomains o env meta =
                    (hookOutcome env, .readCertificate (firstDomain o) ::
                      (evA ++ (evK ++ jitterEvents o env ++
                        [.obtain (merge cert.sans o.domains), .saveResource] ++
                        updateEvents env ariT (firstDomain o) ++
                        [.launchHook o.renewHook
                          (domainsMeta env meta (firstDomain o))])))))))))))) := by
  rcases hrc : env.readCert with e | ⟨cert, rest⟩
  · exact Or.inl ⟨e, rfl, by simp [renewForDomains, hrc]⟩
  · refine Or.inr ⟨cert, rest, rfl, ?_⟩
    rcases hap : ariPhase o env cert (!rest.isEmpty) (firstDomain o) with ⟨ar, evA⟩
    cases ar with
    | ret e =>
      refine absurd ?_ (ariPhase_no_ret o env cert (!rest.isEmpty) (firstDomain o) e)
      rw [hap]
    | fatal m =>
      exact Or.inl ⟨m, evA, rfl, by simp [renewForDomains, hrc, hap]⟩
    | ok ariT =>
      refine Or.inr ⟨ariT, evA, rfl, ?_⟩
      rcases hg : renewGate o env cert (firstDomain o) ariT with b | e | m
      · cases b
        · exact Or.inl ⟨rfl, by simp [renewForDomains, hrc, hap, hg]⟩
        · refine Or.inr (Or.inr ⟨rfl, ?_⟩)
          rcases hkp : keyPhase o env (firstDomain o) with ⟨kr, evK⟩
          cases kr with
          | ok u =>
            cases u
            refine Or.inr (Or.inr ⟨evK, rfl, ?_⟩)
            rcases hob : env.obtainRes with e | u2
            · exact Or.inl ⟨e, rfl,
                by simp [renewForDomains, domainsTail, hrc, hap, hg, hkp, hob]⟩
            · cases u2
              exact Or.inr ⟨rfl,
                by simp [renewForDomains, domainsTail, hrc, hap, hg, hkp, hob]⟩
          | ret e =>
            exact Or.inr (Or.inl ⟨e, evK, rfl,
              by simp [renewForDomains, domainsTail, hrc, hap, hg, hkp]⟩)
          | fatal m =>
            exact Or.inl ⟨m, evK, rfl,
              by simp [renewForDomains, domainsTail, hrc, hap, hg, hkp]⟩
      · exact absurd hg (renewGate_no_ret o env cert (firstDomain o) ariT e)
      · exact Or.inr (Or.inl ⟨m, rfl, by simp [renewForDomains, hrc, hap, hg]⟩)

theorem renewForCSR_shape (o : Opts) (env : Env) (meta : List (String × String)) :
    (∃ e, env.csr = .error e ∧
      renewForCSR o env meta = (.fatal e, [.readCSRFile])) ∨
    (∃ c, env.csr = .ok c ∧
      ((∃ e, env.readCert = .error e ∧
         renewForCSR o env meta =
           (.fatal ("Error while loading the certificate for domain " ++
               c.commonName ++ " " ++ e),
             [.readCSRFile, .readCertificate c.commonName])) ∨
       (∃ cert rest, env.readCert = .ok (cert, rest) ∧
         ((∃ m evA, ariPhase o env cert (!rest.isEmpty) c.commonName = (.fatal m, evA) ∧
            renewForCSR o env meta =
              (.fatal m, .readCSRFile :: .readCertificate c.commonName :: evA)) ∨
          (∃ ariT evA, ariPhase o env cert (!rest.isEmpty) c.commonName = (.ok ariT, evA) ∧
            ((renewGate o env cert c.commonName ariT = .ok false ∧
               renewForCSR o env meta =
                 (.ok (), .readCSRFile :: .readCertificate c.commonName :: evA)) ∨
             (∃ m, renewGate o env cert c.commonName ariT = .fatal m ∧
               renewForCSR o env meta =
                 (.fatal m, .readCSRFile :: .readCertificate c.commonName :: evA)) ∨
             (renewGate o env cert c.commonName ariT = .ok true ∧
               ((∃ e, env.obtainCSRRes = .error e ∧
                  renewForCSR o env meta =
                    (.fatal e, .readCSRFile :: .readCertificate c.commonName ::
                      (evA ++ [.obtainForCSR]))) ∨
                (env.obtainCSRRes = .ok () ∧
                  renewForCSR o env meta =
                    (hookOutcome env, .readCSRFile :: .readCertificate c.commonName ::
                      (evA ++ ([.obtainForCSR, .saveResource] ++
                        updateEvents env ariT c.commonName ++
                        [.launchHook o.renewHook
                          (csrMeta env meta c.commonName)])))))))))))) := by
  rcases hcs : env.csr with e | c
  · exact Or.inl ⟨e, rfl, by simp [renewForCSR, hcs]⟩
  · refine Or.inr ⟨c, rfl, ?_⟩
    rcases hrc : env.readCert with e | ⟨cert, rest⟩
    · exact Or.inl ⟨e, rfl, by simp [renewForCSR, hcs, hrc]⟩
    · refine Or.inr ⟨cert, rest, rfl, ?_⟩
      rcases hap : ariPhase o env cert (!rest.isEmpty) c.commonName with ⟨ar, evA⟩
      cases ar with
      | ret e =>
        refine absurd ?_ (ariPhase_no_ret o env cert (!rest.isEmpty) c.commonName e)
        rw [hap]
      | fatal m =>
        exact Or.inl ⟨m, evA, rfl, by simp [renewForCSR, hcs, hrc, hap]⟩
      | ok ariT =>
        refine Or.inr ⟨ariT, evA, rfl, ?_⟩
        rcases hg : renewGate o env cert c.commonName ariT with b | e | m
        · cases b
          · exact Or.inl ⟨rfl, by simp [renewForCSR, hcs, hrc, hap, hg]⟩
          · refine Or.inr (Or.inr ⟨rfl, ?_⟩)
            rcases hob : env.obtainCSRRes with e | u2
            · exact Or.inl ⟨e, rfl, by simp [renewForCSR, csrTail, hcs, hrc, hap, hg, hob]⟩
            · cases u2
              exact Or.inr ⟨rfl, by simp [renewForCSR, csrTail, hcs, hrc, hap, hg, hob]⟩
        · exact absurd hg (renewGate_no_ret o env cert c.commonName ariT e)
        · exact Or.inr (Or.inl ⟨m, rfl, by simp [renewForCSR, hcs, hrc, hap, hg]⟩)

/-- Event lists produced before the obtain call: they contain no
SaveResource, no UpdateRenewalInfo and no hook invocation. -/
def cleanPre (l : List Event) : Prop :=
  Event.saveResource ∉ l ∧ Event.updateRenewalInfo ∉ l ∧
    ∀ hk m, Event.launchHook hk m ∉ l

theorem cleanPre_def {l : List Event}
    (h : ∀ ev ∈ l, ev ≠ Event.saveResource ∧ ev ≠ Event.updateRenewalInfo ∧
      ∀ hk m, ev ≠ Event.launchHook hk m) : cleanPre l :=
  ⟨fun hm => (h _ hm).1 rfl, fun hm => (h _ hm).2.1 rfl,
    fun hk m hm => (h _ hm).2.2 hk m rfl⟩

theorem cleanPre_ariPhase (o : Opts) (env : Env) (cert : Cert) (hi : Bool) (domain : String) :
    cleanPre (ariPhase o env cert hi domain).2 := by
  apply cleanPre_def
  intro ev hev
  rcases ariPhase_events o env cert hi domain ev hev with h | h | ⟨t, h⟩ <;> subst h <;> simp

theorem cleanPre_keyPhase (o : Opts) (env : Env) (domain : String) :
    cleanPre (keyPhase o env domain).2 := by
  apply cleanPre_def
  intro ev hev
  rw [keyPhase_events o env domain ev hev]
  simp

theorem cleanPre_jitter (o : Opts) (env : Env) : cleanPre (jitterEvents o env) := by
  apply cleanPre_def
  intro ev hev
  rw [jitterEvents_events o env ev hev]
  simp

theorem save_not_mem_updateEvents (env : Env) (t : Option Int) (domain : String) :
    Event.saveResource ∉ updateEvents env t domain := by
  intro hm
  rcases updateEvents_events env t domain _ hm with h | h <;> simp at h

theorem hook_not_mem_updateEvents (env : Env) (t : Option Int) (domain : String)
    (hk : String) (m : List (String × String)) :
    Event.launchHook hk m ∉ updateEvents env t domain := by
  intro hm
  rcases updateEvents_events env t domain _ hm with h | h <;> simp at h

/-! Concrete fixtures used by witnesses and counterexamples. -/

/-- Fixture: a leaf certificate far from expiry (40 days). -/
def wCert : Cert := { isCA := false, notAfter := 40 * nsPerDay, sans := ["example.com"] }

/-- Fixture: a leaf certificate close to expiry (10 days). -/
def wCertSoon : Cert := { isCA := false, notAfter := 10 * nsPerDay, sans := ["example.com"] }

/-- Fixture: an issuer certificate. -/
def wIssuer : Cert := { isCA := true, notAfter := 4000 * nsPerDay, sans := [] }

/-- Fixture: baseline options for a domain-list renewal. -/
def wOpts : Opts :=
  { domains := ["example.com"], csrSet := false, days := 30, ariEnable := false,
    ariHashName := "SHA-256", ariWait := 0, reuseKey := false, bundle := true,
    mustStaple := false, renewHook := "", preferredChain := "", alwaysDeactivate := "",
    noRandomSleep := false }

/-- Fixture: baseline environment in which every collaborator succeeds. -/
def wEnv : Env :=
  { readCert := .ok (wCert, []), csr := .ok { commonName := "example.com" },
    accountEmail := "admin@example.com",
    ariResult := .error (.noARI "acme: renewalInfo endpoint not supported"),
    draw := fun s _ => s, now := 0, readKey := .ok (), parseKey := .ok (),
    isTerminal := true, jitterDraw := 0, obtainRes := .ok (), obtainCSRRes := .ok (),
    updateRes := .ok (), hookRes := .ok (), fileName := fun d e => d ++ e }

/-! Claim theorems. -/

/-- C1: For every stored leaf certificate that is not a CA and every
threshold `days`, needRenewal returns false exactly when the threshold is
non-negative and the whole number of days remaining exceeds it — and then a
run with ARI disabled is terminal with no error and no further action —
and otherwise needRenewal returns true and the renewal proceeds to the
obtain call. -/
theorem claim1_needRenewal_expiry_rule (now days : Int) (cert : Cert) (domain : String)
    (o : Opts) (env : Env) (meta : List (String × String)) (rest : List Cert)
    (hCA : cert.isCA = false) :
    (needRenewal now cert domain days = .ok false ↔
      0 ≤ days ∧ days < intDaysUntil now cert.notAfter) ∧
    (needRenewal now cert domain days = .ok true ↔
      (days < 0 ∨ intDaysUntil now cert.notAfter ≤ days)) ∧
    (env.readCert = .ok (cert, rest) → o.ariEnable = false →
      needRenewal env.now cert (firstDomain o) o.days = .ok false →
      renewForDomains o env meta = (.ok (), [.readCertificate (firstDomain o)])) ∧
    (env.readCert = .ok (cert, rest) → o.ariEnable = false → o.reuseKey = false →
      needRenewal env.now cert (firstDomain o) o.days = .ok true →
      Event.obtain (merge cert.sans o.domains) ∈ (renewForDomains o env meta).2) := by
  have hfalse : needRenewal now cert domain days = .ok false ↔
      0 ≤ days ∧ days < intDaysUntil now cert.notAfter := by
    unfold needRenewal
    rw [hCA]
    by_cases h : 0 ≤ days ∧ days < intDaysUntil now cert.notAfter
    · simp [h]
    · simp [h]
  have htrue : needRenewal now cert domain days = .ok true ↔
      (days < 0 ∨ intDaysUntil now cert.notAfter ≤ days) := by
    unfold needRenewal
    rw [hCA]
    by_cases h : 0 ≤ days ∧ days < intDaysUntil now cert.notAfter
    · first
      | (simp [h]; omega)
      | simp [h]
    · first
      | (simp [h]; omega)
      | simp [h]
  refine ⟨hfalse, htrue, ?_, ?_⟩
  · intro hrc hae hnr
    have hap : ariPhase o env cert (!rest.isEmpty) (firstDomain o) = (.ok none, []) := by
      simp [ariPhase, hae]
    have hg : renewGate o env cert (firstDomain o) none =
        needRenewal env.now cert (firstDomain o) o.days := by
      simp [renewGate]
    simp [renewForDomains, hrc, hap, hg, hnr]
  · intro hrc hae hrk hnr
    have hap : ariPhase o env cert (!rest.isEmpty) (firstDomain o) = (.ok none, []) := by
      simp [ariPhase, hae]
    have hkp : keyPhase o env (firstDomain o) = (.ok (), []) := by
      simp [keyPhase, hrk]
    rcases hob : env.obtainRes with e | u
    · simp [renewForDomains, hrc, hap, renewGate, hnr, domainsTail, hkp, hob]
    · cases u
      simp [renewForDomains, hrc, hap, renewGate, hnr, domainsTail, hkp, hob]

/-- Witness for C1 at a concrete input: a non-CA certificate with 40 days
left against a 30-day threshold needs no renewal and the run is terminal. -/
theorem claim1_witness :
    needRenewal 0 wCert "example.com" 30 = .ok false ∧
    renewForDomains wOpts wEnv [] = (.ok (), [.readCertificate "example.com"]) := by
  have h := claim1_needRenewal_expiry_rule 0 30 wCert "example.com" wOpts wEnv [] [] rfl
  exact ⟨h.1.mpr (by decide), h.2.2.1 rfl rfl (by decide)⟩

theorem shouldRenewAt_cases (draw : Int → Int → Int) (wstart wend now maxWait : Int) :
    ((if min wstart wend = max wstart wend then min wstart wend
        else draw (min wstart wend) (max wstart wend)) ≤ now ∧
      shouldRenewAt draw wstart wend now maxWait = some now) ∨
    (now < (if min wstart wend = max wstart wend then min wstart wend
        else draw (min wstart wend) (max wstart wend)) ∧
      now + maxWait < (if min wstart wend = max wstart wend then min wstart wend
        else draw (min wstart wend) (max wstart wend)) ∧
      shouldRenewAt draw wstart wend now maxWait = none) ∨
    (now < (if min wstart wend = max wstart wend then min wstart wend
        else draw (min wstart wend) (max wstart wend)) ∧
      (if min wstart wend = max wstart wend then min wstart wend
        else draw (min wstart wend) (max wstart wend)) ≤ now + maxWait ∧
      shouldRenewAt draw wstart wend now maxWait =
        some (if min wstart wend = max wstart wend then min wstart wend
          else draw (min wstart wend) (max wstart wend))) := by
  by_cases h1 : (if min wstart wend = max wstart wend then min wstart wend
      else draw (min wstart wend) (max wstart wend)) ≤ now
  · exact Or.inl ⟨h1, by simp only [shouldRenewAt]; rw [if_pos h1]⟩
  · by_cases h2 : now + maxWait < (if min wstart wend = max wstart wend then min wstart wend
        else draw (min wstart wend) (max wstart wend))
    · refine Or.inr (Or.inl ⟨by omega, h2, ?_⟩)
      simp only [shouldRenewAt]
      rw [if_neg h1, if_pos h2]
    · refine Or.inr (Or.inr ⟨by omega, by omega, ?_⟩)
      simp only [shouldRenewAt]
      rw [if_neg h1, if_neg h2]

theorem draw_in_window (draw : Int → Int → Int)
    (hdraw : ∀ s e, s < e → s ≤ draw s e ∧ draw s e < e) (wstart wend : Int) :
    min wstart wend ≤ (if min wstart wend = max wstart wend then min wstart wend
      else draw (min wstart wend) (max wstart wend)) ∧
    (if min wstart wend = max wstart wend then min wstart wend
      else draw (min wstart wend) (max wstart wend)) ≤ max wstart wend ∧
    (min wstart wend ≠ max wstart wend →
      (if min wstart wend = max wstart wend then min wstart wend
        else draw (min wstart wend) (max wstart wend)) < max wstart wend) := by
  have hle : min wstart wend ≤ max wstart wend := min_le_max
  by_cases h : min wstart wend = max wstart wend
  · rw [if_pos h]
    exact ⟨le_refl _, hle, fun hne => absurd h hne⟩
  · rw [if_neg h]
    have hlt : min wstart wend < max wstart wend := lt_of_le_of_ne hle h
    obtain ⟨ha, hb⟩ := hdraw _ _ hlt
    exact ⟨ha, le_of_lt hb, fun _ => hb⟩

/-- C2: In every renewal run that obtains and persists a new certificate
(domain-list or CSR target), SaveResource happens strictly before any
UpdateRenewalInfo replacement report and strictly before the hook
invocation; and UpdateRenewalInfo is invoked exactly when an ARI renewal
time was used for that run. -/
theorem claim2_save_before_report_and_hook (o : Opts) (env : Env)
    (meta : List (String × String)) :
    (∀ pre post, (renewForDomains o env meta).2 = pre ++ Event.saveResource :: post →
      Event.updateRenewalInfo ∉ pre ∧ (∀ hk m, Event.launchHook hk m ∉ pre) ∧
      (Event.updateRenewalInfo ∈ (renewForDomains o env meta).2 ↔
        ∃ cert rest, env.readCert = .ok (cert, rest) ∧
          (ariTimeOf o env cert (!rest.isEmpty) (firstDomain o)).isSome = true)) ∧
    (∀ pre post, (renewForCSR o env meta).2 = pre ++ Event.saveResource :: post →
      Event.updateRenewalInfo ∉ pre ∧ (∀ hk m, Event.launchHook hk m ∉ pre) ∧
      (Event.updateRenewalInfo ∈ (renewForCSR o env meta).2 ↔
        ∃ c, env.csr = .ok c ∧ ∃ cert rest, env.readCert = .ok (cert, rest) ∧
          (ariTimeOf o env cert (!rest.isEmpty) c.commonName).isSome = true)) := by
  constructor
  · intro pre post hdec
    have hsave : Event.saveResource ∈ (renewForDomains o env meta).2 := by
      rw [hdec]
      exact List.mem_append_right _ (List.mem_cons_self _ _)
    rcases renewForDomains_shape o env meta with
      ⟨e, hrc, heq⟩ | ⟨cert, rest, hrc, hcase⟩
    · rw [heq] at hsave
      simp at hsave
    · rcases hcase with ⟨m, evA, hap, heq⟩ | ⟨ariT, evA, hap, hcase⟩
      · have hA : cleanPre evA := by
          have h := cleanPre_ariPhase o env cert (!rest.isEmpty) (firstDomain o)
          rw [hap] at h
          exact h
        rw [heq] at hsave
        rcases List.mem_cons.mp hsave with h | h
        · simp at h
        · exact absurd h hA.1
      · have hA : cleanPre evA := by
          have h := cleanPre_ariPhase o env cert (!rest.isEmpty) (firstDomain o)
          rw [hap] at h
          exact h
        rcases hcase with ⟨hg, heq⟩ | ⟨m, hg, heq⟩ | ⟨hg, hcase⟩
        · rw [heq] at hsave
          rcases List.mem_cons.mp hsave with h | h
          · simp at h
          · exact absurd h hA.1
        · rw [heq] at hsave
          rcases List.mem_cons.mp hsave with h | h
          · simp at h
          · exact absurd h hA.1
        · rcases hcase with ⟨m, evK, hkp, heq⟩ | ⟨e, evK, hkp, heq⟩ | ⟨evK, hkp, hcase⟩
          · have hK : cleanPre evK := by
              have h := cleanPre_keyPhase o env (firstDomain o)
              rw [hkp] at h
              exact h
            rw [heq] at hsave
            rcases List.mem_cons.mp hsave with h | h
            · simp at h
            · rcases List.mem_append.mp h with h | h
              · exact absurd h hA.1
              · exact absurd h hK.1
          · have hK : cleanPre evK := by
              have h := cleanPre_keyPhase o env (firstDomain o)
              rw [hkp] at h
              exact h
            rw [heq] at hsave
            rcases List.mem_cons.mp hsave with h | h
            · simp at h
            · rcases List.mem_append.mp h with h | h
              · exact absurd h hA.1
              · exact absurd h hK.1
          · have hK : cleanPre evK := by
              have h := cleanPre_keyPhase o env (firstDomain o)
              rw [hkp] at h
              exact h
            have hJ : cleanPre (jitterEvents o env) := cleanPre_jitter o env
            rcases hcase with ⟨e, hob, heq⟩ | ⟨hob, heq⟩
            · rw [heq] at hsave
              simp only [List.mem_cons, List.mem_append] at hsave
              rcases hsave with h | h | (h | h) | h
              · simp at h
              · exact absurd h hA.1
              · exact absurd h hK.1
              · exact absurd h hJ.1
              · simp at h
            · have htr : (renewForDomains o env meta).2 =
                  (Event.readCertificate (firstDomain o) ::
                    (evA ++ (evK ++ jitterEvents o env ++
                      [.obtain (merge cert.sans o.domains)]))) ++
                  Event.saveResource ::
                    (updateEvents env ariT (firstDomain o) ++
                      [.launchHook o.renewHook (domainsMeta env meta (firstDomain o))]) := by
                rw [heq]
                simp
              rw [htr] at hdec
              have h1 : Event.saveResource ∉
                  Event.readCertificate (firstDomain o) ::
                    (evA ++ (evK ++ jitterEvents o env ++
                      [.obtain (merge cert.sans o.domains)])) := by
                simp only [List.mem_cons, List.mem_append, not_or]
                exact ⟨by simp, hA.1, ⟨hK.1, hJ.1⟩, by simp⟩
              have h2 : Event.saveResource ∉
                  updateEvents env ariT (firstDomain o) ++
                    [.launchHook o.renewHook (domainsMeta env meta (firstDomain o))] := by
                simp only [List.mem_append, not_or]
                exact ⟨save_not_mem_updateEvents env ariT (firstDomain o), by simp⟩
              obtain ⟨hpre, hpost⟩ := middle_unique hdec h1 h2
              have hat : ariTimeOf o env cert (!rest.isEmpty) (firstDomain o) = ariT :=
                ariTimeOf_eq o env cert (!rest.isEmpty) (firstDomain o) ariT evA hap
              refine ⟨?_, ?_, ?_⟩
              · rw [hpre]
                simp only [List.mem_cons, List.mem_append, not_or]
                exact ⟨by simp, hA.2.1, ⟨hK.2.1, hJ.2.1⟩, by simp⟩
              · intro hk mm
                rw [hpre]
                simp only [List.mem_cons, List.mem_append, not_or]
                exact ⟨by simp, hA.2.2 hk mm, ⟨hK.2.2 hk mm, hJ.2.2 hk mm⟩, by simp⟩
              · constructor
                · intro hu
                  refine ⟨cert, rest, hrc, ?_⟩
                  rw [hat]
                  rw [htr] at hu
                  rcases List.mem_append.mp hu with h | h
                  · exact absurd h (by
                      simp only [List.mem_cons, List.mem_append, not_or]
                      exact ⟨by simp, hA.2.1, ⟨hK.2.1, hJ.2.1⟩, by simp⟩)
                  · rcases List.mem_cons.mp h with h | h
                    · simp at h
                    · rcases List.mem_append.mp h with h | h
                      · exact (update_mem_updateEvents env ariT (firstDomain o)).mp h
                      · simp at h
                · rintro ⟨cert2, rest2, hrc2, hsome⟩
                  rw [hrc] at hrc2
                  have hcc : cert2 = cert ∧ rest2 = rest := by
                    have := hrc2
                    simp only [Except.ok.injEq, Prod.mk.injEq] at this
                    exact ⟨this.1.symm, this.2.symm⟩
                  rw [hcc.1, hcc.2, hat] at hsome
                  have hu : Event.updateRenewalInfo ∈ updateEvents env ariT (firstDomain o) :=
                    (update_mem_updateEvents env ariT (firstDomain o)).mpr hsome
                  rw [htr]
                  exact List.mem_append_right _ (List.mem_cons_of_mem _
                    (List.mem_append_left _ hu))
  · intro pre post hdec
    have hsave : Event.saveResource ∈ (renewForCSR o env meta).2 := by
      rw [hdec]
      exact List.mem_append_right _ (List.mem_cons_self _ _)
    rcases renewForCSR_shape o env meta with
      ⟨e, hcs, heq⟩ | ⟨c, hcs, hcase⟩
    · rw [heq] at hsave
      simp at hsave
    · rcases hcase with ⟨e, hrc, heq⟩ | ⟨cert, rest, hrc, hcase⟩
      · rw [heq] at hsave
        simp at hsave
      · rcases hcase with ⟨m, evA, hap, heq⟩ | ⟨ariT, evA, hap, hcase⟩
        · have hA : cleanPre evA := by
            have h := cleanPre_ariPhase o env cert (!rest.isEmpty) c.commonName
            rw [hap] at h
            exact h
          rw [heq] at hsave
          rcases List.mem_cons.mp hsave with h | h
          · simp at h
          · rcases List.mem_cons.mp h with h | h
            · simp at h
            · exact absurd h hA.1
        · have hA : cleanPre evA := by
            have h := cleanPre_ariPhase o env cert (!rest.isEmpty) c.commonName
            rw [hap] at h
            exact h
          rcases hcase with ⟨hg, heq⟩ | ⟨m, hg, heq⟩ | ⟨hg, hcase⟩
          · rw [heq] at hsave
            rcases List.mem_cons.mp hsave with h | h
            · simp at h
            · rcases List.mem_cons.mp h with h | h
              · simp at h
              · exact absurd h hA.1
          · rw [heq] at hsave
            rcases List.mem_cons.mp hsave with h | h
            · simp at h
            · rcases List.mem_cons.mp h with h | h
              · simp at h
              · exact absurd h hA.1
          · rcases hcase with ⟨e, hob, heq⟩ | ⟨hob, heq⟩
            · rw [heq] at hsave
              simp only [List.mem_cons, List.mem_append] at hsave
              rcases hsave with h | h | h | h
              · simp at h
              · simp at h
              · exact absurd h hA.1
              · simp at h
            · have htr : (renewForCSR o env meta).2 =
                  (Event.readCSRFile :: Event.readCertificate c.commonName ::
                    (evA ++ [.obtainForCSR])) ++
                  Event.saveResource ::
                    (updateEvents env ariT c.commonName ++
                      [.launchHook o.renewHook (csrMeta env meta c.commonName)]) := by
                rw [heq]
                simp
              rw [htr] at hdec
              have h1 : Event.saveResource ∉
                  Event.readCSRFile :: Event.readCertificate c.commonName ::
                    (evA ++ [.obtainForCSR]) := by
                simp only [List.mem_cons, List.mem_append, not_or]
                exact ⟨by simp, by simp, hA.1, by simp⟩
              have h2 : Event.saveResource ∉
                  updateEvents env ariT c.commonName ++
                    [.launchHook o.renewHook (csrMeta env meta c.commonName)] := by
                simp only [List.mem_append, not_or]
                exact ⟨save_not_mem_updateEvents env ariT c.commonName, by simp⟩
              obtain ⟨hpre, hpost⟩ := middle_unique hdec h1 h2
              have hat : ariTimeOf o env cert (!rest.isEmpty) c.commonName = ariT :=
                ariTimeOf_eq o env cert (!rest.isEmpty) c.commonName ariT evA hap
              refine ⟨?_, ?_, ?_⟩
              · rw [hpre]
                simp only [List.mem_cons, List.mem_append, not_or]
                exact ⟨by simp, by simp, hA.2.1, by simp⟩
              · intro hk mm
                rw [hpre]
                simp only [List.mem_cons, List.mem_append, not_or]
                exact ⟨by simp, by simp, hA.2.2 hk mm, by simp⟩
              · constructor
                · intro hu
                  refine ⟨c, hcs, cert, rest, hrc, ?_⟩
                  rw [hat]
                  rw [htr] at hu
                  rcases List.mem_append.mp hu with h | h
                  · exact absurd h (by
                      simp only [List.mem_cons, List.mem_append, not_or]
                      exact ⟨by simp, by simp, hA.2.1, by simp⟩)
                  · rcases List.mem_cons.mp h with h | h
                    · simp at h
                    · rcases List.mem_append.mp h with h | h
                      · exact (update_mem_updateEvents env ariT c.commonName).mp h
                      · simp at h
                · rintro ⟨c2, hcs2, cert2, rest2, hrc2, hsome⟩
                  rw [hcs] at hcs2
                  have hc2 : c2 = c := by
                    have := hcs2
                    simp only [Except.ok.injEq] at this
                    exact this.symm
                  rw [hrc] at hrc2
                  have hcc : cert2 = cert ∧ rest2 = rest := by
                    have := hrc2
                    simp only [Except.ok.injEq, Prod.mk.injEq] at this
                    exact ⟨this.1.symm, this.2.symm⟩
                  rw [hc2, hcc.1, hcc.2, hat] at hsome
                  have hu : Event.updateRenewalInfo ∈ updateEvents env ariT c.commonName :=
                    (update_mem_updateEvents env ariT c.commonName).mpr hsome
                  rw [htr]
                  exact List.mem_append_right _ (List.mem_cons_of_mem _
                    (List.mem_append_left _ hu))

/-- Draw function used by the C5 counterexample: one unit past the window
start. -/
def cexDraw : Int → Int → Int := fun s _ => s + 1

/-- C5 counterexample: for the window starting exactly at `now` (so the
window has already begun) with a two-hour width and a two-hour maximum wait,
a legitimate in-window draw makes shouldRenewAt return an instant different
from `now`, contradicting the claim that T = now whenever the window has
already begun or elapsed. -/
theorem claim5_counterexample :
    (0 : Int) ≤ cexDraw 0 (2 * nsPerHour) ∧ cexDraw 0 (2 * nsPerHour) < 2 * nsPerHour ∧
    (0 : Int) ≤ 0 ∧
    shouldRenewAt cexDraw 0 (2 * nsPerHour) 0 (2 * nsPerHour) = some 1 ∧
    some (1 : Int) ≠ some (0 : Int) := by decide

/-- C5 (amended): shouldRenewAt returns either absent or an instant T in
`[now, now + maxWait]`; T = now whenever the drawn instant is at or before
now — in particular whenever the whole window has already elapsed — and in
particular: for the window `[now-2h, now-1h)` with zero wait it returns
exactly now; for `[now+1h, now+2h)` it returns absent with zero or
59-minute wait, and with a two-hour wait it returns an instant strictly
before `now+2h`. -/
theorem claim5_decision_range (draw : Int → Int → Int)
    (hdraw : ∀ s e, s < e → s ≤ draw s e ∧ draw s e < e)
    (wstart wend now maxWait : Int) (hmw : 0 ≤ maxWait) :
    (shouldRenewAt draw wstart wend now maxWait = none ∨
      ∃ T, shouldRenewAt draw wstart wend now maxWait = some T ∧
        now ≤ T ∧ T ≤ now + maxWait) ∧
    (max wstart wend ≤ now → shouldRenewAt draw wstart wend now maxWait = some now) ∧
    shouldRenewAt draw (now - 2 * nsPerHour) (now - nsPerHour) now 0 = some now ∧
    shouldRenewAt draw (now + nsPerHour) (now + 2 * nsPerHour) now 0 = none ∧
    shouldRenewAt draw (now + nsPerHour) (now + 2 * nsPerHour) now (59 * nsPerMinute) =
      none ∧
    (∃ T, shouldRenewAt draw (now + nsPerHour) (now + 2 * nsPerHour) now (2 * nsPerHour) =
      some T ∧ T < now + 2 * nsPerHour) := by
  have hhour : (0 : Int) < nsPerHour := by decide
  have hmin : (0 : Int) < nsPerMinute := by decide
  have hm59 : 59 * nsPerMinute < nsPerHour := by decide
  refine ⟨?_, ?_, ?_, ?_, ?_, ?_⟩
  · rcases shouldRenewAt_cases draw wstart wend now maxWait with
      ⟨h1, heq⟩ | ⟨h1, h2, heq⟩ | ⟨h1, h2, heq⟩
    · exact Or.inr ⟨now, heq, le_refl now, by omega⟩
    · exact Or.inl heq
    · exact Or.inr ⟨_, heq, by omega, h2⟩
  · intro helapsed
    obtain ⟨ha, hb, _⟩ := draw_in_window draw hdraw wstart wend
    rcases shouldRenewAt_cases draw wstart wend now maxWait with
      ⟨h1, heq⟩ | ⟨h1, h2, heq⟩ | ⟨h1, h2, heq⟩
    · exact heq
    · omega
    · omega
  · obtain ⟨ha, hb, hc⟩ := draw_in_window draw hdraw (now - 2 * nsPerHour) (now - nsPerHour)
    have hm1 : min (now - 2 * nsPerHour) (now - nsPerHour) = now - 2 * nsPerHour := by
      apply min_eq_left; omega
    have hm2 : max (now - 2 * nsPerHour) (now - nsPerHour) = now - nsPerHour := by
      apply max_eq_right; omega
    rcases shouldRenewAt_cases draw (now - 2 * nsPerHour) (now - nsPerHour) now 0 with
      ⟨h1, heq⟩ | ⟨h1, h2, heq⟩ | ⟨h1, h2, heq⟩
    · exact heq
    · rw [hm1, hm2] at hb h1
      omega
    · rw [hm1, hm2] at hb h1
      omega
  · obtain ⟨ha, hb, hc⟩ := draw_in_window draw hdraw (now + nsPerHour) (now + 2 * nsPerHour)
    have hm1 : min (now + nsPerHour) (now + 2 * nsPerHour) = now + nsPerHour := by
      apply min_eq_left; omega
    have hm2 : max (now + nsPerHour) (now + 2 * nsPerHour) = now + 2 * nsPerHour := by
      apply max_eq_right; omega
    rcases shouldRenewAt_cases draw (now + nsPerHour) (now + 2 * nsPerHour) now 0 with
      ⟨h1, heq⟩ | ⟨h1, h2, heq⟩ | ⟨h1, h2, heq⟩
    · rw [hm1, hm2] at ha h1
      omega
    · exact heq
    · rw [hm1, hm2] at ha h2
      omega
  · obtain ⟨ha, hb, hc⟩ := draw_in_window draw hdraw (now + nsPerHour) (now + 2 * nsPerHour)
    have hm1 : min (now + nsPerHour) (now + 2 * nsPerHour) = now + nsPerHour := by
      apply min_eq_left; omega
    have hm2 : max (now + nsPerHour) (now + 2 * nsPerHour) = now + 2 * nsPerHour := by
      apply max_eq_right; omega
    have hne : min (now + nsPerHour) (now + 2 * nsPerHour) ≠
        max (now + nsPerHour) (now + 2 * nsPerHour) := by
      rw [hm1, hm2]; omega
    have hlt := hc hne
    rcases shouldRenewAt_cases draw (now + nsPerHour) (now + 2 * nsPerHour) now
        (59 * nsPerMinute) with ⟨h1, heq⟩ | ⟨h1, h2, heq⟩ | ⟨h1, h2, heq⟩
    · rw [hm1, hm2] at ha h1
      omega
    · exact heq
    · rw [hm1, hm2] at ha hlt h2
      omega
  · obtain ⟨ha, hb, hc⟩ := draw_in_window draw hdraw (now + nsPerHour) (now + 2 * nsPerHour)
    have hm1 : min (now + nsPerHour) (now + 2 * nsPerHour) = now + nsPerHour := by
      apply min_eq_left; omega
    have hm2 : max (now + nsPerHour) (now + 2 * nsPerHour) = now + 2 * nsPerHour := by
      apply max_eq_right; omega
    have hne : min (now + nsPerHour) (now + 2 * nsPerHour) ≠
        max (now + nsPerHour) (now + 2 * nsPerHour) := by
      rw [hm1, hm2]; omega
    have hlt := hc hne
    rcases shouldRenewAt_cases draw (now + nsPerHour) (now + 2 * nsPerHour) now
        (2 * nsPerHour) with ⟨h1, heq⟩ | ⟨h1, h2, heq⟩ | ⟨h1, h2, heq⟩
    · rw [hm1, hm2] at ha h1
      omega
    · rw [hm1, hm2] at hlt h2
      omega
    · refine ⟨_, heq, ?_⟩
      rw [hm1, hm2] at hlt
      rw [hm1, hm2]
      exact hlt

/-- Witness for C5 at a concrete input: the degenerate draw that always
returns the window start, with `now = 0` and zero maximum wait. -/
theorem claim5_witness :
    shouldRenewAt (fun s _ => s) (0 - 2 * nsPerHour) (0 - nsPerHour) 0 0 = some 0 ∧
    shouldRenewAt (fun s _ => s) (0 + nsPerHour) (0 + 2 * nsPerHour) 0 0 = none := by
  have h := claim5_decision_range (fun s _ => s)
    (fun s e hse => ⟨le_refl s, hse⟩) 0 0 0 0 (le_refl 0)
  exact ⟨h.2.2.1, h.2.2.2.1⟩

set_option maxRecDepth 1000000

/-- C6: makeCertID applied to the fixture leaf certificate (serial
0x3EA3456865441F1C) and the fixture issuer certificate (given by its
RawSubject and subjectPublicKey DER fields) with hash algorithm name
"SHA-256" returns exactly the reference CertID string, with no error. -/
theorem claim6_certid_fixture :
    makeCertID ariLeafSerial (some (ariIssuerRawSubject, ariIssuerKeyBits)) "SHA-256" =
      .ok ariLeafCertID := by rfl

/-- C7: merge returns prevDomains with exactly those elements of nextDomains
that do not already occur (in the growing prevDomains) appended in their
original relative order, without duplicates, leaving prevDomains unchanged;
merging a list into itself yields it unchanged. -/
theorem claim7_merge_spec (prevDomains nextDomains : List String) :
    (∃ l, merge prevDomains nextDomains = prevDomains ++ l ∧
      l.Sublist nextDomains ∧ l.Nodup ∧
      (∀ s ∈ l, s ∉ prevDomains ∧ s ∈ nextDomains) ∧
      (∀ s ∈ nextDomains, s ∉ prevDomains → s ∈ l)) ∧
    merge nextDomains nextDomains = nextDomains := by
  exact ⟨merge_decomp nextDomains prevDomains,
    merge_of_subset nextDomains nextDomains fun s hs => hs⟩

theorem domainsTail_none_events (o : Opts) (env : Env) (cert : Cert)
    (meta : List (String × String)) (domain : String) :
    ∀ ev ∈ (domainsTail o env cert none meta domain).2,
      ev = .readKeyFile domain ∨ ev = .jitterSleep env.jitterDraw ∨
      (∃ ds, ev = .obtain ds) ∨ ev = .saveResource ∨
      (∃ hk m, ev = .launchHook hk m) := by
  intro ev hev
  rcases hkp : keyPhase o env domain with ⟨kr, evK⟩
  have hevK : ∀ e2 ∈ evK, e2 = Event.readKeyFile domain := by
    intro e2 he2
    exact keyPhase_events o env domain e2 (by rw [hkp]; exact he2)
  cases kr with
  | ret e =>
    rw [show domainsTail o env cert none meta domain = (.ret e, evK) from
      by simp [domainsTail, hkp]] at hev
    exact Or.inl (hevK _ hev)
  | fatal m =>
    rw [show domainsTail o env cert none meta domain = (.fatal m, evK) from
      by simp [domainsTail, hkp]] at hev
    exact Or.inl (hevK _ hev)
  | ok u =>
    cases u
    rcases hob : env.obtainRes with e | u2
    · rw [show domainsTail o env cert none meta domain =
          (.fatal e, evK ++ jitterEvents o env ++ [.obtain (merge cert.sans o.domains)])
          from by simp [domainsTail, hkp, hob]] at hev
      simp only [List.mem_append] at hev
      rcases hev with (h | h) | h
      · exact Or.inl (hevK _ h)
      · exact Or.inr (Or.inl (jitterEvents_events o env _ h))
      · have : ev = Event.obtain (merge cert.sans o.domains) := by simpa using h
        exact Or.inr (Or.inr (Or.inl ⟨_, this⟩))
    · cases u2
      rw [show domainsTail o env cert none meta domain =
          (hookOutcome env, evK ++ jitterEvents o env ++
            [.obtain (merge cert.sans o.domains), .saveResource] ++
            updateEvents env none domain ++
            [.launchHook o.renewHook (domainsMeta env meta domain)])
          from by simp [domainsTail, hkp, hob]] at hev
      have hupd : updateEvents env none domain = [] := by simp [updateEvents]
      rw [hupd] at hev
      simp only [List.mem_append, List.mem_cons, List.append_nil] at hev
      rcases hev with ((h | h) | h | h) | h
      · exact Or.inl (hevK _ h)
      · exact Or.inr (Or.inl (jitterEvents_events o env _ h))
      · exact Or.inr (Or.inr (Or.inl ⟨_, h⟩))
      · have : ev = Event.saveResource := by simpa using h
        exact Or.inr (Or.inr (Or.inr (Or.inl this)))
      · have : ev = Event.launchHook o.renewHook (domainsMeta env meta domain) := by
          simpa using h
        exact Or.inr (Or.inr (Or.inr (Or.inr ⟨_, _, this⟩)))

theorem csrTail_none_events (o : Opts) (env : Env)
    (meta : List (String × String)) (domain : String) :
    ∀ ev ∈ (csrTail o env none meta domain).2,
      ev = .obtainForCSR ∨ ev = .saveResource ∨ (∃ hk m, ev = .launchHook hk m) := by
  intro ev hev
  rcases hob : env.obtainCSRRes with e | u
  · rw [show csrTail o env none meta domain = (.fatal e, [.obtainForCSR]) from
      by simp [csrTail, hob]] at hev
    exact Or.inl (by simpa using hev)
  · cases u
    rw [show csrTail o env none meta domain =
        (hookOutcome env, [.obtainForCSR, .saveResource] ++ updateEvents env none domain ++
          [.launchHook o.renewHook (csrMeta env meta domain)])
        from by simp [csrTail, hob]] at hev
    have hupd : updateEvents env none domain = [] := by simp [updateEvents]
    rw [hupd] at hev
    simp only [List.append_nil, List.mem_append, List.mem_cons] at hev
    rcases hev with (h | h | h) | h
    · exact Or.inl h
    · exact Or.inr (Or.inl h)
    · simp at h
    · exact Or.inr (Or.inr ⟨_, _, by simpa using h⟩)

/-- C10: If ARI is enabled but the stored chain has no issuer certificate,
the renewal never calls the ARI endpoints, emits the missing-issuer warning,
and its outcome is exactly that of the same run with ARI disabled (the
decision falls to the expiry-based rule alone), for both targets. -/
theorem claim10_missing_issuer (o : Opts) (env : Env) (meta : List (String × String))
    (cert : Cert) (c : Csr) :
    (env.readCert = .ok (cert, []) → o.ariEnable = true →
      Event.getRenewalInfo ∉ (renewForDomains o env meta).2 ∧
      Event.updateRenewalInfo ∉ (renewForDomains o env meta).2 ∧
      Event.warnNoIssuer (firstDomain o) ∈ (renewForDomains o env meta).2 ∧
      (renewForDomains o env meta).1 =
        (renewForDomains { o with ariEnable := false } env meta).1) ∧
    (env.readCert = .ok (cert, []) → o.ariEnable = true → env.csr = .ok c →
      Event.getRenewalInfo ∉ (renewForCSR o env meta).2 ∧
      Event.updateRenewalInfo ∉ (renewForCSR o env meta).2 ∧
      Event.warnNoIssuer c.commonName ∈ (renewForCSR o env meta).2 ∧
      (renewForCSR o env meta).1 =
        (renewForCSR { o with ariEnable := false } env meta).1) := by
  constructor
  · intro hrc hae
    have hap : ariPhase o env cert false (firstDomain o) =
        (.ok none, [.warnNoIssuer (firstDomain o)]) := by
      simp [ariPhase, hae]
    have hap2 : ariPhase { o with ariEnable := false } env cert false
        (firstDomain { o with ariEnable := false }) = (.ok none, []) := by
      simp [ariPhase]
    rcases hg : needRenewal env.now cert (firstDomain o) o.days with b | e | m
    · cases b
      · have hg2 : needRenewal env.now cert (firstDomain { o with ariEnable := false })
            o.days = .ok false := hg
        refine ⟨?_, ?_, ?_, ?_⟩ <;>
          simp [renewForDomains, hrc, hap, hap2, renewGate, hg, hg2]
      · have hg2 : needRenewal env.now cert (firstDomain { o with ariEnable := false })
            o.days = .ok true := hg
        have hev := domainsTail_none_events o env cert meta (firstDomain o)
        have hdt : domainsTail { o with ariEnable := false } env cert none meta
            (firstDomain { o with ariEnable := false }) =
            domainsTail o env cert none meta (firstDomain o) := rfl
        have heq : renewForDomains o env meta =
            ((domainsTail o env cert none meta (firstDomain o)).1,
              .readCertificate (firstDomain o) :: ([.warnNoIssuer (firstDomain o)] ++
                (domainsTail o env cert none meta (firstDomain o)).2)) := by
          simp [renewForDomains, hrc, hap, renewGate, hg]
        have heq2 : (renewForDomains { o with ariEnable := false } env meta).1 =
            (domainsTail o env cert none meta (firstDomain o)).1 := by
          rw [show renewForDomains { o with ariEnable := false } env meta =
            ((domainsTail { o with ariEnable := false } env cert none meta
                (firstDomain { o with ariEnable := false })).1,
              .readCertificate (firstDomain { o with ariEnable := false }) ::
                ([] ++ (domainsTail { o with ariEnable := false } env cert none meta
                  (firstDomain { o with ariEnable := false })).2)) from by
            simp [renewForDomains, hrc, hap2, renewGate, hg2]]
          rw [hdt]
        refine ⟨?_, ?_, ?_, ?_⟩
        · rw [heq]
          intro hm
          rcases List.mem_cons.mp hm with h | h
          · simp at h
          · rcases List.mem_append.mp h with h | h
            · simp at h
            · rcases hev _ h with h2 | h2 | ⟨ds, h2⟩ | h2 | ⟨hk, m2, h2⟩ <;> simp at h2
        · rw [heq]
          intro hm
          rcases List.mem_cons.mp hm with h | h
          · simp at h
          · rcases List.mem_append.mp h with h | h
            · simp at h
            · rcases hev _ h with h2 | h2 | ⟨ds, h2⟩ | h2 | ⟨hk, m2, h2⟩ <;> simp at h2
        · rw [heq]
          simp
        · rw [heq, heq2]
    · exact absurd hg (needRenewal_no_ret env.now cert (firstDomain o) o.days e)
    · have hg2 : needRenewal env.now cert (firstDomain { o with ariEnable := false })
          o.days = .fatal m := hg
      refine ⟨?_, ?_, ?_, ?_⟩ <;>
        simp [renewForDomains, hrc, hap, hap2, renewGate, hg, hg2]
  · intro hrc hae hcs
    have hap : ariPhase o env cert false c.commonName =
        (.ok none, [.warnNoIssuer c.commonName]) := by
      simp [ariPhase, hae]
    have hap2 : ariPhase { o with ariEnable := false } env cert false c.commonName =
        (.ok none, []) := by
      simp [ariPhase]
    rcases hg : needRenewal env.now cert c.commonName o.days with b | e | m
    · cases b
      · refine ⟨?_, ?_, ?_, ?_⟩ <;>
          simp [renewForCSR, hcs, hrc, hap, hap2, renewGate, hg]
      · have hev := csrTail_none_events o env meta c.commonName
        have hct : csrTail { o with ariEnable := false } env none meta c.commonName =
            csrTail o env none meta c.commonName := rfl
        have heq : renewForCSR o env meta =
            ((csrTail o env none meta c.commonName).1,
              .readCSRFile :: .readCertificate c.commonName ::
                ([.warnNoIssuer c.commonName] ++
                  (csrTail o env none meta c.commonName).2)) := by
          simp [renewForCSR, hcs, hrc, hap, renewGate, hg]
        have heq2 : (renewForCSR { o with ariEnable := false } env meta).1 =
            (csrTail o env none meta c.commonName).1 := by
          rw [show renewForCSR { o with ariEnable := false } env meta =
            ((csrTail { o with ariEnable := false } env none meta c.commonName).1,
              .readCSRFile :: .readCertificate c.commonName ::
                ([] ++ (csrTail { o with ariEnable := false } env none meta
                  c.commonName).2)) from by
            simp [renewForCSR, hcs, hrc, hap2, renewGate, hg]]
          rw [hct]
        refine ⟨?_, ?_, ?_, ?_⟩
        · rw [heq]
          intro hm
          rcases List.mem_cons.mp hm with h | h
          · simp at h
          · rcases List.mem_cons.mp h with h | h
            · simp at h
            · rcases List.mem_append.mp h with h | h
              · simp at h
              · rcases hev _ h with h2 | h2 | ⟨hk, m2, h2⟩ <;> simp at h2
        · rw [heq]
          intro hm
          rcases List.mem_cons.mp hm with h | h
          · simp at h
          · rcases List.mem_cons.mp h with h | h
            · simp at h
            · rcases List.mem_append.mp h with h | h
              · simp at h
              · rcases hev _ h with h2 | h2 | ⟨hk, m2, h2⟩ <;> simp at h2
        · rw [heq]
          simp
        · rw [heq, heq2]
    · exact absurd hg (needRenewal_no_ret env.now cert c.commonName o.days e)
    · refine ⟨?_, ?_, ?_, ?_⟩ <;>
        simp [renewForCSR, hcs, hrc, hap, hap2, renewGate, hg]

/-- Witness for C10 at a concrete input: ARI enabled with a single-element
chain warns and decides by expiry alone, exactly like the ARI-disabled run. -/
theorem claim10_witness :
    Event.getRenewalInfo ∉
      (renewForDomains { wOpts with ariEnable := true } wEnv []).2 ∧
    Event.updateRenewalInfo ∉
      (renewForDomains { wOpts with ariEnable := true } wEnv []).2 ∧
    Event.warnNoIssuer "example.com" ∈
      (renewForDomains { wOpts with ariEnable := true } wEnv []).2 ∧
    (renewForDomains { wOpts with ariEnable := true } wEnv []).1 =
      (renewForDomains { { wOpts with ariEnable := true } with ariEnable := false }
        wEnv []).1 := by
  exact (claim10_missing_issuer { wOpts with ariEnable := true } wEnv [] wCert
    { commonName := "example.com" }).1 rfl rfl

/-- C3: ARI failure isolation.  Every GetRenewalInfo error makes
getARIRenewalTime return absent without a fatal termination, after which the
expiry-based rule decides the run; and an UpdateRenewalInfo error after
persistence leaves the metadata population, the hook invocation and the
run's outcome untouched. -/
theorem claim3_ari_failure_isolation (o : Opts) (env : Env) (cert : Cert)
    (meta : List (String × String)) (domain : String) (rest : List Cert)
    (hCA : cert.isCA = false) :
    (∀ err, env.ariResult = .error err →
      getARIRenewalTime o env cert domain = (.ok none, [.getRenewalInfo])) ∧
    (∀ err, env.ariResult = .error err → env.readCert = .ok (cert, rest) →
      o.ariEnable = true → rest.isEmpty = false →
      ((needRenewal env.now cert (firstDomain o) o.days = .ok false →
         renewForDomains o env meta =
           (.ok (), [.readCertificate (firstDomain o), .getRenewalInfo])) ∧
       (needRenewal env.now cert (firstDomain o) o.days = .ok true → o.reuseKey = false →
         Event.obtain (merge cert.sans o.domains) ∈ (renewForDomains o env meta).2))) ∧
    (∀ errU rt evA evK, env.readCert = .ok (cert, rest) →
      ariPhase o env cert (!rest.isEmpty) (firstDomain o) = (.ok (some rt), evA) →
      keyPhase o env (firstDomain o) = (.ok (), evK) →
      env.obtainRes = .ok () → env.updateRes = .error errU →
      Event.updateRenewalInfo ∈ (renewForDomains o env meta).2 ∧
      Event.launchHook o.renewHook (domainsMeta env meta (firstDomain o)) ∈
        (renewForDomains o env meta).2 ∧
      (renewForDomains o env meta).1 = hookOutcome env) := by
  refine ⟨?_, ?_, ?_⟩
  · intro err har
    simp [getARIRenewalTime, hCA, har]
  · intro err har hrc hae hrest
    have hap : ariPhase o env cert (!rest.isEmpty) (firstDomain o) =
        (.ok none, [.getRenewalInfo]) := by
      simp [ariPhase, hae, hrest, getARIRenewalTime, hCA, har]
    constructor
    · intro hnr
      simp [renewForDomains, hrc, hap, renewGate, hnr]
    · intro hnr hrk
      have hkp : keyPhase o env (firstDomain o) = (.ok (), []) := by
        simp [keyPhase, hrk]
      rcases hob : env.obtainRes with e | u
      · simp [renewForDomains, hrc, hap, renewGate, hnr, domainsTail, hkp, hob]
      · cases u
        simp [renewForDomains, hrc, hap, renewGate, hnr, domainsTail, hkp, hob]
  · intro errU rt evA evK hrc hap hkp hob hup
    have hupd : updateEvents env (some rt) (firstDomain o) =
        [Event.updateRenewalInfo, Event.warnUpdateFailed (firstDomain o)] := by
      simp [updateEvents, hup]
    have heq : renewForDomains o env meta =
        (hookOutcome env, .readCertificate (firstDomain o) ::
          (evA ++ (evK ++ jitterEvents o env ++
            [.obtain (merge cert.sans o.domains), .saveResource] ++
            updateEvents env (some rt) (firstDomain o) ++
            [.launchHook o.renewHook (domainsMeta env meta (firstDomain o))]))) := by
      simp [renewForDomains, hrc, hap, renewGate, domainsTail, hkp, hob]
    rw [heq, hupd]
    refine ⟨?_, ?_, rfl⟩
    · simp
    · simp

/-- Witness for C3 at concrete inputs: an ARI transport error degrades to
the expiry rule and the run still terminates cleanly; an update-report
error still reaches the hook. -/
theorem claim3_witness :
    getARIRenewalTime wOpts wEnv wCert "example.com" = (.ok none, [.getRenewalInfo]) ∧
    renewForDomains { wOpts with ariEnable := true }
      { wEnv with readCert := .ok (wCert, [wIssuer]) } [] =
      (.ok (), [.readCertificate "example.com", .getRenewalInfo]) := by
  have h1 := (claim3_ari_failure_isolation wOpts wEnv wCert [] "example.com" []
    rfl).1 (.noARI "acme: renewalInfo endpoint not supported") rfl
  have h2 := ((claim3_ari_failure_isolation { wOpts with ariEnable := true }
    { wEnv with readCert := .ok (wCert, [wIssuer]) } wCert [] "example.com" [wIssuer]
    rfl).2.1 (.noARI "acme: renewalInfo endpoint not supported") rfl rfl rfl rfl).1
    (by decide)
  exact ⟨h1, h2⟩

/-- C4: Fatal conditions abort the run with no further side effects: an
unreadable stored certificate stops after the load attempt; a key-parse
failure under key reuse returns the error with no obtain, save, report or
hook; an obtain failure is fatal with nothing saved, reported or hooked;
and a stored CA leaf is fatal before any obtain, save, report or hook. -/
theorem claim4_fatal_no_partial_effects (o : Opts) (env : Env)
    (meta : List (String × String)) (cert : Cert) (rest : List Cert) :
    (∀ e, env.readCert = .error e →
      renewForDomains o env meta =
        (.fatal ("Error while loading the certificate for domain " ++
          (firstDomain o) ++ " " ++ e), [.readCertificate (firstDomain o)])) ∧
    (∀ ariT evA e, env.readCert = .ok (cert, rest) →
      ariPhase o env cert (!rest.isEmpty) (firstDomain o) = (.ok ariT, evA) →
      renewGate o env cert (firstDomain o) ariT = .ok true →
      o.reuseKey = true → env.readKey = .ok () → env.parseKey = .error e →
      renewForDomains o env meta =
        (.ret e, .readCertificate (firstDomain o) ::
          (evA ++ [.readKeyFile (firstDomain o)])) ∧
      (∀ ds, Event.obtain ds ∉ (renewForDomains o env meta).2) ∧
      Event.saveResource ∉ (renewForDomains o env meta).2 ∧
      Event.updateRenewalInfo ∉ (renewForDomains o env meta).2 ∧
      (∀ hk m, Event.launchHook hk m ∉ (renewForDomains o env meta).2)) ∧
    (∀ ariT evA evK e, env.readCert = .ok (cert, rest) →
      ariPhase o env cert (!rest.isEmpty) (firstDomain o) = (.ok ariT, evA) →
      renewGate o env cert (firstDomain o) ariT = .ok true →
      keyPhase o env (firstDomain o) = (.ok (), evK) →
      env.obtainRes = .error e →
      (renewForDomains o env meta).1 = .fatal e ∧
      Event.saveResource ∉ (renewForDomains o env meta).2 ∧
      Event.updateRenewalInfo ∉ (renewForDomains o env meta).2 ∧
      (∀ hk m, Event.launchHook hk m ∉ (renewForDomains o env meta).2)) ∧
    (env.readCert = .ok (cert, rest) → cert.isCA = true →
      (∃ m, (renewForDomains o env meta).1 = .fatal m) ∧
      (∀ ds, Event.obtain ds ∉ (renewForDomains o env meta).2) ∧
      Event.saveResource ∉ (renewForDomains o env meta).2 ∧
      Event.updateRenewalInfo ∉ (renewForDomains o env meta).2 ∧
      (∀ hk m, Event.launchHook hk m ∉ (renewForDomains o env meta).2)) := by
  refine ⟨?_, ?_, ?_, ?_⟩
  · intro e hrc
    simp [renewForDomains, hrc]
  · intro ariT evA e hrc hap hg hrk hkey hpk
    have hA : cleanPre evA := by
      have h := cleanPre_ariPhase o env cert (!rest.isEmpty) (firstDomain o)
      rw [hap] at h
      exact h
    have hAo : ∀ ds, Event.obtain ds ∉ evA := by
      intro ds hm
      rcases ariPhase_events o env cert (!rest.isEmpty) (firstDomain o) _
        (by rw [hap]; exact hm) with h | h | ⟨t, h⟩ <;> simp at h
    have hkp : keyPhase o env (firstDomain o) =
        (.ret e, [.readKeyFile (firstDomain o)]) := by
      simp [keyPhase, hrk, hkey, hpk]
    have heq : renewForDomains o env meta =
        (.ret e, .readCertificate (firstDomain o) ::
          (evA ++ [.readKeyFile (firstDomain o)])) := by
      simp [renewForDomains, hrc, hap, hg, domainsTail, hkp]
    refine ⟨heq, ?_, ?_, ?_, ?_⟩
    · intro ds
      rw [heq]
      intro hm
      rcases List.mem_cons.mp hm with h | h
      · simp at h
      · rcases List.mem_append.mp h with h | h
        · exact hAo ds h
        · simp at h
    · rw [heq]
      intro hm
      rcases List.mem_cons.mp hm with h | h
      · simp at h
      · rcases List.mem_append.mp h with h | h
        · exact hA.1 h
        · simp at h
    · rw [heq]
      intro hm
      rcases List.mem_cons.mp hm with h | h
      · simp at h
      · rcases List.mem_append.mp h with h | h
        · exact hA.2.1 h
        · simp at h
    · intro hk m
      rw [heq]
      intro hm
      rcases List.mem_cons.mp hm with h | h
      · simp at h
      · rcases List.mem_append.mp h with h | h
        · exact hA.2.2 hk m h
        · simp at h
  · intro ariT evA evK e hrc hap hg hkp hob
    have hA : cleanPre evA := by
      have h := cleanPre_ariPhase o env cert (!rest.isEmpty) (firstDomain o)
      rw [hap] at h
      exact h
    have hK : cleanPre evK := by
      have h := cleanPre_keyPhase o env (firstDomain o)
      rw [hkp] at h
      exact h
    have hJ : cleanPre (jitterEvents o env) := cleanPre_jitter o env
    have heq : renewForDomains o env meta =
        (.fatal e, .readCertificate (firstDomain o) ::
          (evA ++ (evK ++ jitterEvents o env ++
            [.obtain (merge cert.sans o.domains)]))) := by
      simp [renewForDomains, hrc, hap, hg, domainsTail, hkp, hob]
    refine ⟨by rw [heq], ?_, ?_, ?_⟩
    · rw [heq]
      intro hm
      simp only [List.mem_cons, List.mem_append] at hm
      rcases hm with h | h | (h | h) | h
      · simp at h
      · exact hA.1 h
      · exact hK.1 h
      · exact hJ.1 h
      · simp at h
    · rw [heq]
      intro hm
      simp only [List.mem_cons, List.mem_append] at hm
      rcases hm with h | h | (h | h) | h
      · simp at h
      · exact hA.2.1 h
      · exact hK.2.1 h
      · exact hJ.2.1 h
      · simp at h
    · intro hk m
      rw [heq]
      intro hm
      simp only [List.mem_cons, List.mem_append] at hm
      rcases hm with h | h | (h | h) | h
      · simp at h
      · exact hA.2.2 hk m h
      · exact hK.2.2 hk m h
      · exact hJ.2.2 hk m h
      · simp at h
  · intro hrc hca
    rcases ariPhase_shape o env cert (!rest.isEmpty) (firstDomain o) with
      ⟨hae, hap⟩ | ⟨hae, hhi, hap⟩ | ⟨hae, hhi, hca2, hap⟩ | ⟨hae, hhi, hca2, hrest⟩
    · have hg : renewGate o env cert (firstDomain o) none =
          .fatal ("[" ++ (firstDomain o) ++ "] Certificate bundle starts with a CA certificate") := by
        simp [renewGate, needRenewal, hca]
      have heq : renewForDomains o env meta =
          (.fatal ("[" ++ (firstDomain o) ++ "] Certificate bundle starts with a CA certificate"),
            [.readCertificate (firstDomain o)]) := by
        simp [renewForDomains, hrc, hap, hg]
      rw [heq]
      refine ⟨⟨_, rfl⟩, ?_, ?_, ?_, ?_⟩ <;> simp
    · have hg : renewGate o env cert (firstDomain o) none =
          .fatal ("[" ++ (firstDomain o) ++ "] Certificate bundle starts with a CA certificate") := by
        simp [renewGate, needRenewal, hca]
      have heq : renewForDomains o env meta =
          (.fatal ("[" ++ (firstDomain o) ++ "] Certificate bundle starts with a CA certificate"),
            [.readCertificate (firstDomain o), .warnNoIssuer (firstDomain o)]) := by
        simp [renewForDomains, hrc, hap, hg]
      rw [heq]
      refine ⟨⟨_, rfl⟩, ?_, ?_, ?_, ?_⟩ <;> simp
    · have heq : renewForDomains o env meta =
          (.fatal ("[" ++ (firstDomain o) ++ "] Certificate bundle starts with a CA certificate"),
            [.readCertificate (firstDomain o)]) := by
        simp [renewForDomains, hrc, hap]
      rw [heq]
      refine ⟨⟨_, rfl⟩, ?_, ?_, ?_, ?_⟩ <;> simp
    · rw [hca] at hca2
      simp at hca2

/-- Witness for C4 at concrete inputs: an unreadable certificate is fatal
after the load step, and a key-parse failure returns the error with nothing
obtained, saved, reported or hooked. -/
theorem claim4_witness :
    renewForDomains wOpts { wEnv with readCert := .error "open: no such file" } [] =
      (.fatal ("Error while loading the certificate for domain example.com open: no such file"),
        [.readCertificate "example.com"]) ∧
    renewForDomains { wOpts with reuseKey := true }
      { wEnv with readCert := .ok (wCertSoon, []), parseKey := .error "pem decode: bad key" } [] =
      (.ret "pem decode: bad key",
        [.readCertificate "example.com", .readKeyFile "example.com"]) := by
  constructor
  · exact (claim4_fatal_no_partial_effects wOpts
      { wEnv with readCert := .error "open: no such file" } [] wCert []).1
      "open: no such file" rfl
  · exact ((claim4_fatal_no_partial_effects { wOpts with reuseKey := true }
      { wEnv with readCert := .ok (wCertSoon, []), parseKey := .error "pem decode: bad key" }
      [] wCertSoon []).2.1 none [] "pem decode: bad key" rfl (by decide) (by decide)
      rfl rfl rfl).1

theorem jitter_not_mem_ariPhase (o : Opts) (env : Env) (cert : Cert) (hi : Bool)
    (domain : String) (t : Int) :
    Event.jitterSleep t ∉ (ariPhase o env cert hi domain).2 := by
  intro hm
  rcases ariPhase_events o env cert hi domain _ hm with h | h | ⟨t2, h⟩ <;> simp at h

theorem jitter_not_mem_keyPhase (o : Opts) (env : Env) (domain : String) (t : Int) :
    Event.jitterSleep t ∉ (keyPhase o env domain).2 := by
  intro hm
  have := keyPhase_events o env domain _ hm
  simp at this

theorem jitter_not_mem_updateEvents (env : Env) (ot : Option Int) (domain : String)
    (t : Int) : Event.jitterSleep t ∉ updateEvents env ot domain := by
  intro hm
  rcases updateEvents_events env ot domain _ hm with h | h <;> simp at h

theorem renewForDomains_jitter_src (o : Opts) (env : Env) (meta : List (String × String))
    (t : Int) (hm : Event.jitterSleep t ∈ (renewForDomains o env meta).2) :
    Event.jitterSleep t ∈ jitterEvents o env := by
  rcases renewForDomains_shape o env meta with ⟨e, hrc, heq⟩ | ⟨cert, rest, hrc, hcase⟩
  · rw [heq] at hm
    simp at hm
  · have hnA : ∀ evA r, ariPhase o env cert (!rest.isEmpty) (firstDomain o) = (r, evA) →
        Event.jitterSleep t ∉ evA := by
      intro evA r hap hm2
      have := jitter_not_mem_ariPhase o env cert (!rest.isEmpty) (firstDomain o) t
      rw [hap] at this
      exact this hm2
    have hnK : ∀ evK r, keyPhase o env (firstDomain o) = (r, evK) →
        Event.jitterSleep t ∉ evK := by
      intro evK r hkp hm2
      have := jitter_not_mem_keyPhase o env (firstDomain o) t
      rw [hkp] at this
      exact this hm2
    rcases hcase with ⟨m, evA, hap, heq⟩ | ⟨ariT, evA, hap, hcase⟩
    · rw [heq] at hm
      rcases List.mem_cons.mp hm with h | h
      · simp at h
      · exact absurd h (hnA evA _ hap)
    · rcases hcase with ⟨hg, heq⟩ | ⟨m, hg, heq⟩ | ⟨hg, hcase⟩
      · rw [heq] at hm
        rcases List.mem_cons.mp hm with h | h
        · simp at h
        · exact absurd h (hnA evA _ hap)
      · rw [heq] at hm
        rcases List.mem_cons.mp hm with h | h
        · simp at h
        · exact absurd h (hnA evA _ hap)
      · rcases hcase with ⟨m, evK, hkp, heq⟩ | ⟨e, evK, hkp, heq⟩ | ⟨evK, hkp, hcase⟩
        · rw [heq] at hm
          rcases List.mem_cons.mp hm with h | h
          · simp at h
          · rcases List.mem_append.mp h with h | h
            · exact absurd h (hnA evA _ hap)
            · exact absurd h (hnK evK _ hkp)
        · rw [heq] at hm
          rcases List.mem_cons.mp hm with h | h
          · simp at h
          · rcases List.mem_append.mp h with h | h
            · exact absurd h (hnA evA _ hap)
            · exact absurd h (hnK evK _ hkp)
        · rcases hcase with ⟨e, hob, heq⟩ | ⟨hob, heq⟩
          · rw [heq] at hm
            simp only [List.mem_cons, List.mem_append] at hm
            rcases hm with h | h | (h | h) | h
            · simp at h
            · exact absurd h (hnA evA _ hap)
            · exact absurd h (hnK evK _ hkp)
            · exact h
            · simp at h
          · rw [heq] at hm
            simp only [List.mem_cons, List.mem_append] at hm
            rcases hm with h | h | (((h | h) | h) | h) | h
            · simp at h
            · exact absurd h (hnA evA _ hap)
            · exact absurd h (hnK evK _ hkp)
            · exact h
            · simp at h
            · exact absurd h (jitter_not_mem_updateEvents env ariT (firstDomain o) t)
            · simp at h

theorem renewForCSR_no_jitter (o : Opts) (env : Env) (meta : List (String × String))
    (t : Int) : Event.jitterSleep t ∉ (renewForCSR o env meta).2 := by
  intro hm
  rcases renewForCSR_shape o env meta with ⟨e, hcs, heq⟩ | ⟨c, hcs, hcase⟩
  · rw [heq] at hm
    simp at hm
  · rcases hcase with ⟨e, hrc, heq⟩ | ⟨cert, rest, hrc, hcase⟩
    · rw [heq] at hm
      simp at hm
    · have hnA : ∀ evA r, ariPhase o env cert (!rest.isEmpty) c.commonName = (r, evA) →
          Event.jitterSleep t ∉ evA := by
        intro evA r hap hm2
        have := jitter_not_mem_ariPhase o env cert (!rest.isEmpty) c.commonName t
        rw [hap] at this
        exact this hm2
      rcases hcase with ⟨m, evA, hap, heq⟩ | ⟨ariT, evA, hap, hcase⟩
      · rw [heq] at hm
        simp only [List.mem_cons] at hm
        rcases hm with h | h | h
        · simp at h
        · simp at h
        · exact absurd h (hnA evA _ hap)
      · rcases hcase with ⟨hg, heq⟩ | ⟨m, hg, heq⟩ | ⟨hg, hcase⟩
        · rw [heq] at hm
          simp only [List.mem_cons] at hm
          rcases hm with h | h | h
          · simp at h
          · simp at h
          · exact absurd h (hnA evA _ hap)
        · rw [heq] at hm
          simp only [List.mem_cons] at hm
          rcases hm with h | h | h
          · simp at h
          · simp at h
          · exact absurd h (hnA evA _ hap)
        · rcases hcase with ⟨e, hob, heq⟩ | ⟨hob, heq⟩
          · rw [heq] at hm
            simp only [List.mem_cons, List.mem_append] at hm
            rcases hm with h | h | h | h
            · simp at h
            · simp at h
            · exact absurd h (hnA evA _ hap)
            · simp at h
          · rw [heq] at hm
            have h1 := hnA evA _ hap
            have h2 := jitter_not_mem_updateEvents env ariT c.commonName t
            simp only [List.mem_cons, List.mem_append] at hm
            simp_all

/-- Fixture: options for a CSR renewal. -/
def wOptsCSR : Opts := { wOpts with csrSet := true }

/-- Fixture: a non-interactive environment with a soon-expiring stored
certificate, so the renewal proceeds. -/
def wEnvCSR : Env := { wEnv with readCert := .ok (wCertSoon, []), isTerminal := false }

/-- Discriminator for jitter-sleep events. -/
def isJitter : Event → Bool
  | .jitterSleep _ => true
  | _ => false

/-- C8 counterexample: a CSR renewal run in a non-interactive environment
with the no-random-sleep option unset reaches the ACME obtain call with no
random sleep at all — the jitter step does not exist on the CSR path. -/
theorem claim8_counterexample :
    wEnvCSR.isTerminal = false ∧ wOptsCSR.noRandomSleep = false ∧
    (renewForCSR wOptsCSR wEnvCSR [(renewEnvAccountEmail, "admin@example.com")]).2 =
      [.readCSRFile, .readCertificate "example.com", .obtainForCSR, .saveResource,
        .launchHook "" [("LEGO_ACCOUNT_EMAIL", "admin@example.com"),
          ("LEGO_CERT_DOMAIN", "example.com"), ("LEGO_CERT_PATH", "example.com.crt"),
          ("LEGO_CERT_KEY_PATH", "example.com.key")]] ∧
    ((renewForCSR wOptsCSR wEnvCSR
      [(renewEnvAccountEmail, "admin@example.com")]).2).any isJitter = false := by
  refine ⟨rfl, rfl, by decide, by decide⟩

/-- C8 (amended): on the domain-list path, when standard output is not a
terminal and the no-random-sleep option is unset, a random sleep drawn
below the fixed eight-minute ceiling occurs immediately before the obtain
call, and it is skipped entirely when a terminal is detected or jitter is
disabled; the CSR path never sleeps the jitter. -/
theorem claim8_jitter (o : Opts) (env : Env) (meta : List (String × String))
    (cert : Cert) (rest : List Cert) :
    (∀ ariT evA evK, env.readCert = .ok (cert, rest) →
      ariPhase o env cert (!rest.isEmpty) (firstDomain o) = (.ok ariT, evA) →
      renewGate o env cert (firstDomain o) ariT = .ok true →
      keyPhase o env (firstDomain o) = (.ok (), evK) →
      env.isTerminal = false → o.noRandomSleep = false →
      0 ≤ env.jitterDraw → env.jitterDraw < jitterCeiling →
      ∃ pre post, (renewForDomains o env meta).2 =
        pre ++ [Event.jitterSleep env.jitterDraw,
          Event.obtain (merge cert.sans o.domains)] ++ post ∧
        0 ≤ env.jitterDraw ∧ env.jitterDraw < jitterCeiling) ∧
    ((env.isTerminal = true ∨ o.noRandomSleep = true) →
      ∀ t, Event.jitterSleep t ∉ (renewForDomains o env meta).2) ∧
    (∀ t, Event.jitterSleep t ∉ (renewForCSR o env meta).2) := by
  refine ⟨?_, ?_, ?_⟩
  · intro ariT evA evK hrc hap hg hkp hterm hnrs hd0 hd1
    have hj : jitterEvents o env = [.jitterSleep env.jitterDraw] := by
      simp [jitterEvents, hterm, hnrs]
    rcases hob : env.obtainRes with e | u
    · refine ⟨.readCertificate (firstDomain o) :: (evA ++ evK), [], ?_, hd0, hd1⟩
      have heq : (renewForDomains o env meta).2 =
          .readCertificate (firstDomain o) ::
            (evA ++ (evK ++ jitterEvents o env ++
              [.obtain (merge cert.sans o.domains)])) := by
        simp [renewForDomains, hrc, hap, hg, domainsTail, hkp, hob]
      rw [heq, hj]
      simp
    · cases u
      refine ⟨.readCertificate (firstDomain o) :: (evA ++ evK),
        Event.saveResource :: (updateEvents env ariT (firstDomain o) ++
          [.launchHook o.renewHook (domainsMeta env meta (firstDomain o))]), ?_, hd0, hd1⟩
      have heq : (renewForDomains o env meta).2 =
          .readCertificate (firstDomain o) ::
            (evA ++ (evK ++ jitterEvents o env ++
              [.obtain (merge cert.sans o.domains), .saveResource] ++
              updateEvents env ariT (firstDomain o) ++
              [.launchHook o.renewHook (domainsMeta env meta (firstDomain o))])) := by
        simp [renewForDomains, hrc, hap, hg, domainsTail, hkp, hob]
      rw [heq, hj]
      simp
  · intro h t hm
    have hj : jitterEvents o env = [] := by
      rcases h with h | h <;> simp [jitterEvents, h]
    have := renewForDomains_jitter_src o env meta t hm
    rw [hj] at this
    simp at this
  · intro t
    exact renewForCSR_no_jitter o env meta t

/-- Witness for C8 at a concrete input: a non-interactive domain-list run
sleeps the drawn jitter right before the obtain call. -/
theorem claim8_witness :
    ∃ pre post,
      (renewForDomains wOpts { wEnvCSR with csr := wEnvCSR.csr } []).2 =
        pre ++ [Event.jitterSleep 0, Event.obtain ["example.com"]] ++ post ∧
      (0 : Int) ≤ 0 ∧ (0 : Int) < jitterCeiling := by
  exact (claim8_jitter wOpts { wEnvCSR with csr := wEnvCSR.csr } [] wCertSoon []).1
    none [] [] rfl (by decide) (by decide) (by decide) rfl rfl (by decide) (by decide)

theorem find?_filter_keys (l : List (String × String)) (k k2 : String) (hne : k2 ≠ k) :
    (l.filter (fun p => p.1 ≠ k)).find? (fun p => p.1 = k2) =
      l.find? (fun p => p.1 = k2) := by
  induction l with
  | nil => rfl
  | cons x xs ih =>
    by_cases hq : x.1 = k
    · have hq2 : (decide (x.1 ≠ k)) = false := by simp [hq]
      have h2 : (decide (x.1 = k2)) = false := by
        simp only [decide_eq_false_iff_not]
        rw [hq]
        exact fun h => hne h.symm
      rw [List.filter_cons, hq2, if_neg (by simp), List.find?_cons, h2]
      exact ih
    · have hq2 : (decide (x.1 ≠ k)) = true := by simp [hq]
      rw [List.filter_cons, hq2, if_pos rfl, List.find?_cons, List.find?_cons]
      cases hp : (decide (x.1 = k2)) with
      | true => rfl
      | false => exact ih

theorem mget_mset_same (m : List (String × String)) (k v : String) :
    mget (mset m k v) k = some v := by
  unfold mget mset
  rw [List.find?_append]
  have h1 : (m.filter (fun p => p.1 ≠ k)).find? (fun p => p.1 = k) = none := by
    rw [List.find?_eq_none]
    intro x hx
    have h2 := (List.mem_filter.mp hx).2
    simp only [decide_not, Bool.not_eq_true', decide_eq_false_iff_not] at h2
    simp [h2]
  rw [h1, Option.none_or]
  simp [List.find?_cons]

theorem mget_mset_other (m : List (String × String)) (k v k2 : String) (hne : k2 ≠ k) :
    mget (mset m k v) k2 = mget m k2 := by
  unfold mget mset
  rw [List.find?_append, find?_filter_keys m k k2 hne]
  cases hf : m.find? (fun p => p.1 = k2) with
  | some p => rfl
  | none =>
    rw [Option.none_or]
    have h2 : k ≠ k2 := fun h => hne h.symm
    simp [List.find?_cons, h2]

theorem mget_singleton_same (k v : String) : mget [(k, v)] k = some v := by
  simp [mget, List.find?_cons]

theorem mget_singleton_other (k v k2 : String) (hne : k2 ≠ k) : mget [(k, v)] k2 = none := by
  have h2 : k ≠ k2 := fun h => hne h.symm
  simp [mget, List.find?_cons, h2]

theorem domainsMeta_mget (env : Env) (email domain : String) :
    mget (domainsMeta env [(renewEnvAccountEmail, email)] domain)
      renewEnvAccountEmail = some email ∧
    mget (domainsMeta env [(renewEnvAccountEmail, email)] domain)
      renewEnvCertDomain = some domain ∧
    mget (domainsMeta env [(renewEnvAccountEmail, email)] domain)
      renewEnvCertPath = some (env.fileName domain ".crt") ∧
    mget (domainsMeta env [(renewEnvAccountEmail, email)] domain)
      renewEnvCertKeyPath = some (env.fileName domain ".key") ∧
    mget (domainsMeta env [(renewEnvAccountEmail, email)] domain)
      renewEnvCertPEMPath = some (env.fileName domain ".pem") ∧
    mget (domainsMeta env [(renewEnvAccountEmail, email)] domain)
      renewEnvCertPFXPath = some (env.fileName domain ".pfx") := by
  unfold domainsMeta
  refine ⟨?_, ?_, ?_, ?_, ?_, ?_⟩
  · rw [mget_mset_other _ _ _ _ (by decide), mget_mset_other _ _ _ _ (by decide),
      mget_mset_other _ _ _ _ (by decide), mget_mset_other _ _ _ _ (by decide),
      mget_mset_other _ _ _ _ (by decide)]
    exact mget_singleton_same _ _
  · rw [mget_mset_other _ _ _ _ (by decide), mget_mset_other _ _ _ _ (by decide),
      mget_mset_other _ _ _ _ (by decide), mget_mset_other _ _ _ _ (by decide)]
    exact mget_mset_same _ _ _
  · rw [mget_mset_other _ _ _ _ (by decide), mget_mset_other _ _ _ _ (by decide),
      mget_mset_other _ _ _ _ (by decide)]
    exact mget_mset_same _ _ _
  · rw [mget_mset_other _ _ _ _ (by decide), mget_mset_other _ _ _ _ (by decide)]
    exact mget_mset_same _ _ _
  · rw [mget_mset_other _ _ _ _ (by decide)]
    exact mget_mset_same _ _ _
  · exact mget_mset_same _ _ _

theorem csrMeta_mget (env : Env) (email domain : String) :
    mget (csrMeta env [(renewEnvAccountEmail, email)] domain)
      renewEnvAccountEmail = some email ∧
    mget (csrMeta env [(renewEnvAccountEmail, email)] domain)
      renewEnvCertDomain = some domain ∧
    mget (csrMeta env [(renewEnvAccountEmail, email)] domain)
      renewEnvCertPath = some (env.fileName domain ".crt") ∧
    mget (csrMeta env [(renewEnvAccountEmail, email)] domain)
      renewEnvCertKeyPath = some (env.fileName domain ".key") ∧
    mget (csrMeta env [(renewEnvAccountEmail, email)] domain)
      renewEnvCertPEMPath = none ∧
    mget (csrMeta env [(renewEnvAccountEmail, email)] domain)
      renewEnvCertPFXPath = none := by
  unfold csrMeta
  refine ⟨?_, ?_, ?_, ?_, ?_, ?_⟩
  · rw [mget_mset_other _ _ _ _ (by decide), mget_mset_other _ _ _ _ (by decide),
      mget_mset_other _ _ _ _ (by decide)]
    exact mget_singleton_same _ _
  · rw [mget_mset_other _ _ _ _ (by decide), mget_mset_other _ _ _ _ (by decide)]
    exact mget_mset_same _ _ _
  · rw [mget_mset_other _ _ _ _ (by decide)]
    exact mget_mset_same _ _ _
  · exact mget_mset_same _ _ _
  · rw [mget_mset_other _ _ _ _ (by decide), mget_mset_other _ _ _ _ (by decide),
      mget_mset_other _ _ _ _ (by decide)]
    exact mget_singleton_other _ _ _ (by decide)
  · rw [mget_mset_other _ _ _ _ (by decide), mget_mset_other _ _ _ _ (by decide),
      mget_mset_other _ _ _ _ (by decide)]
    exact mget_singleton_other _ _ _ (by decide)

/-- C9 counterexample: a successful CSR renewal passes the hook a metadata
mapping that contains no `LEGO_CERT_PEM_PATH` and no `LEGO_CERT_PFX_PATH`
entry, contradicting the claim that every successful renewal surfaces all
four file paths. -/
theorem claim9_counterexample :
    (renewForCSR wOptsCSR wEnvCSR [(renewEnvAccountEmail, "admin@example.com")]).1 =
      .ok () ∧
    (renewForCSR wOptsCSR wEnvCSR [(renewEnvAccountEmail, "admin@example.com")]).2 =
      [.readCSRFile, .readCertificate "example.com", .obtainForCSR, .saveResource,
        .launchHook "" [("LEGO_ACCOUNT_EMAIL", "admin@example.com"),
          ("LEGO_CERT_DOMAIN", "example.com"), ("LEGO_CERT_PATH", "example.com.crt"),
          ("LEGO_CERT_KEY_PATH", "example.com.key")]] ∧
    mget [("LEGO_ACCOUNT_EMAIL", "admin@example.com"),
      ("LEGO_CERT_DOMAIN", "example.com"), ("LEGO_CERT_PATH", "example.com.crt"),
      ("LEGO_CERT_KEY_PATH", "example.com.key")] renewEnvCertPEMPath = none ∧
    mget [("LEGO_ACCOUNT_EMAIL", "admin@example.com"),
      ("LEGO_CERT_DOMAIN", "example.com"), ("LEGO_CERT_PATH", "example.com.crt"),
      ("LEGO_CERT_KEY_PATH", "example.com.key")] renewEnvCertPFXPath = none := by
  refine ⟨by decide, by decide, by decide, by decide⟩

/-- C9 (amended): the metadata passed to the hook of a successful
domain-list renewal contains the account email, the certificate domain and
all four file paths, while a successful CSR renewal passes only the email,
the domain, the certificate path and the key path — no PEM and no PKCS#12
entry. -/
theorem claim9_hook_metadata (o : Opts) (env : Env) (cert : Cert) (rest : List Cert) :
    (∀ ariT evA evK, o.csrSet = false → env.readCert = .ok (cert, rest) →
      ariPhase o env cert (!rest.isEmpty) (firstDomain o) = (.ok ariT, evA) →
      renewGate o env cert (firstDomain o) ariT = .ok true →
      keyPhase o env (firstDomain o) = (.ok (), evK) → env.obtainRes = .ok () →
      Event.launchHook o.renewHook
        (domainsMeta env [(renewEnvAccountEmail, env.accountEmail)] (firstDomain o)) ∈
        (renew o env).2 ∧
      mget (domainsMeta env [(renewEnvAccountEmail, env.accountEmail)] (firstDomain o))
        renewEnvAccountEmail = some env.accountEmail ∧
      mget (domainsMeta env [(renewEnvAccountEmail, env.accountEmail)] (firstDomain o))
        renewEnvCertDomain = some (firstDomain o) ∧
      mget (domainsMeta env [(renewEnvAccountEmail, env.accountEmail)] (firstDomain o))
        renewEnvCertPath = some (env.fileName (firstDomain o) ".crt") ∧
      mget (domainsMeta env [(renewEnvAccountEmail, env.accountEmail)] (firstDomain o))
        renewEnvCertKeyPath = some (env.fileName (firstDomain o) ".key") ∧
      mget (domainsMeta env [(renewEnvAccountEmail, env.accountEmail)] (firstDomain o))
        renewEnvCertPEMPath = some (env.fileName (firstDomain o) ".pem") ∧
      mget (domainsMeta env [(renewEnvAccountEmail, env.accountEmail)] (firstDomain o))
        renewEnvCertPFXPath = some (env.fileName (firstDomain o) ".pfx")) ∧
    (∀ c ariT evA, o.csrSet = true → env.csr = .ok c → env.readCert = .ok (cert, rest) →
      ariPhase o env cert (!rest.isEmpty) c.commonName = (.ok ariT, evA) →
      renewGate o env cert c.commonName ariT = .ok true → env.obtainCSRRes = .ok () →
      Event.launchHook o.renewHook
        (csrMeta env [(renewEnvAccountEmail, env.accountEmail)] c.commonName) ∈
        (renew o env).2 ∧
      mget (csrMeta env [(renewEnvAccountEmail, env.accountEmail)] c.commonName)
        renewEnvAccountEmail = some env.accountEmail ∧
      mget (csrMeta env [(renewEnvAccountEmail, env.accountEmail)] c.commonName)
        renewEnvCertDomain = some c.commonName ∧
      mget (csrMeta env [(renewEnvAccountEmail, env.accountEmail)] c.commonName)
        renewEnvCertPath = some (env.fileName c.commonName ".crt") ∧
      mget (csrMeta env [(renewEnvAccountEmail, env.accountEmail)] c.commonName)
        renewEnvCertKeyPath = some (env.fileName c.commonName ".key") ∧
      mget (csrMeta env [(renewEnvAccountEmail, env.accountEmail)] c.commonName)
        renewEnvCertPEMPath = none ∧
      mget (csrMeta env [(renewEnvAccountEmail, env.accountEmail)] c.commonName)
        renewEnvCertPFXPath = none) := by
  constructor
  · intro ariT evA evK hcsr hrc hap hg hkp hob
    obtain ⟨m1, m2, m3, m4, m5, m6⟩ := domainsMeta_mget env env.accountEmail (firstDomain o)
    refine ⟨?_, m1, m2, m3, m4, m5, m6⟩
    have hrw : (renew o env).2 =
        (renewForDomains o env [(renewEnvAccountEmail, env.accountEmail)]).2 := by
      simp [renew, hcsr]
    rw [hrw]
    have heq : (renewForDomains o env [(renewEnvAccountEmail, env.accountEmail)]).2 =
        .readCertificate (firstDomain o) ::
          (evA ++ (evK ++ jitterEvents o env ++
            [.obtain (merge cert.sans o.domains), .saveResource] ++
            updateEvents env ariT (firstDomain o) ++
            [.launchHook o.renewHook
              (domainsMeta env [(renewEnvAccountEmail, env.accountEmail)]
                (firstDomain o))])) := by
      simp [renewForDomains, hrc, hap, hg, domainsTail, hkp, hob]
    rw [heq]
    simp
  · intro c ariT evA hcsr hcs hrc hap hg hob
    obtain ⟨m1, m2, m3, m4, m5, m6⟩ := csrMeta_mget env env.accountEmail c.commonName
    refine ⟨?_, m1, m2, m3, m4, m5, m6⟩
    have hrw : (renew o env).2 =
        (renewForCSR o env [(renewEnvAccountEmail, env.accountEmail)]).2 := by
      simp [renew, hcsr]
    rw [hrw]
    have heq : (renewForCSR o env [(renewEnvAccountEmail, env.accountEmail)]).2 =
        .readCSRFile :: .readCertificate c.commonName ::
          (evA ++ ([.obtainForCSR, .saveResource] ++
            updateEvents env ariT c.commonName ++
            [.launchHook o.renewHook
              (csrMeta env [(renewEnvAccountEmail, env.accountEmail)]
                c.commonName)])) := by
      simp [renewForCSR, hcs, hrc, hap, hg, csrTail, hob]
    rw [heq]
    simp

/-- Witness for C9 at a concrete input: the hook metadata of a successful
domain-list run carries the email, the domain and all four paths. -/
theorem claim9_witness :
    Event.launchHook ""
      (domainsMeta { wEnv with readCert := .ok (wCertSoon, []) }
        [(renewEnvAccountEmail, "admin@example.com")] "example.com") ∈
      (renew wOpts { wEnv with readCert := .ok (wCertSoon, []) }).2 ∧
    mget (domainsMeta { wEnv with readCert := .ok (wCertSoon, []) }
      [(renewEnvAccountEmail, "admin@example.com")] "example.com")
      renewEnvCertPFXPath = some "example.com.pfx" := by
  have h := (claim9_hook_metadata wOpts { wEnv with readCert := .ok (wCertSoon, []) }
    wCertSoon []).1 none [] [] rfl rfl (by decide) (by decide) (by decide) rfl
  exact ⟨h.1, h.2.2.2.2.2.2⟩

/-- Fixture: options with ARI enabled. -/
def wOptsA : Opts := { wOpts with ariEnable := true }

/-- Fixture: an environment with an issuer in the chain and an ARI window
entirely in the past, so the ARI renewal time is `now` and the replacement
report runs after the save. -/
def wEnvA : Env := { wEnv with
  readCert := .ok (wCert, [wIssuer]),
  ariResult := .ok ⟨-2 * nsPerHour, -nsPerHour, ""⟩ }

/-- Witness for C2 at a concrete input: in a successful ARI-driven run the
prefix before SaveResource holds neither the replacement report nor the
hook, and the report appears exactly because an ARI renewal time was used. -/
theorem claim2_witness :
    Event.updateRenewalInfo ∉ ([.readCertificate "example.com", .getRenewalInfo,
      .obtain ["example.com"]] : List Event) ∧
    (∀ hk m, Event.launchHook hk m ∉ ([.readCertificate "example.com", .getRenewalInfo,
      .obtain ["example.com"]] : List Event)) ∧
    (Event.updateRenewalInfo ∈
        (renewForDomains wOptsA wEnvA [(renewEnvAccountEmail, "admin@example.com")]).2 ↔
      ∃ cert rest, wEnvA.readCert = .ok (cert, rest) ∧
        (ariTimeOf wOptsA wEnvA cert (!rest.isEmpty) (firstDomain wOptsA)).isSome = true) := by
  exact (claim2_save_before_report_and_hook wOptsA wEnvA
    [(renewEnvAccountEmail, "admin@example.com")]).1
    [.readCertificate "example.com", .getRenewalInfo, .obtain ["example.com"]]
    [.updateRenewalInfo, .launchHook ""
      (domainsMeta wEnvA [(renewEnvAccountEmail, "admin@example.com")] "example.com")]
    (by decide)

end Lego
